import Mathlib

set_option maxRecDepth 1000000

/-!
A verification development for a repository that bridges two IoT vendor
clouds: an air-quality sensor platform pushing signed webhooks and a
smart-plug platform controlled through a signed REST API.  The Python
sources are shallowly embedded below: pure fragments become Lean
functions, side effects (DynamoDB writes, outbound HTTP control calls)
are recorded in explicit result structures, network responses are passed
in as explicit values, and Python exceptions become `Except` errors or
the `Bool`/`Option` results the handlers map them to.  Machine
arithmetic is modelled with `Nat`/`Int` reduced modulo `2 ^ 32` where the
hash algorithms need wrapping; timestamps are modelled in integral
(milli)seconds.

SHA-256 and HMAC-SHA256 are implemented concretely (FIPS 180-4 /
FIPS 198-1) over byte lists.  The round constants are derived from the
fractional parts of the cube/square roots of the first primes, exactly
as the standard defines them, and the implementation is pinned down by
the standard test vectors (see `sha256Hex_empty_vector`,
`sha256Hex_abc_vector`, `hmacSha256Hex_rfc_vector` below).
-/

/-! ## Bytes, hex and UTF-8 -/

/-- UTF-8 encoding of a single character (code point), as a list of bytes. -/
def charUtf8 (c : Char) : List Nat :=
  let n := c.toNat
  if n < 128 then [n]
  else if n < 2048 then [192 + n / 64, 128 + n % 64]
  else if n < 65536 then [224 + n / 4096, 128 + (n / 64) % 64, 128 + n % 64]
  else [240 + n / 262144, 128 + (n / 4096) % 64, 128 + (n / 64) % 64, 128 + n % 64]

/-- UTF-8 encoding of a string, as Python's `str.encode("utf-8")`. -/
def utf8Bytes (s : String) : List Nat :=
  (s.data.map charUtf8).flatten

/-- Lowercase hexadecimal digit for a value `< 16`. -/
def hexDigitLower (n : Nat) : Char :=
  if n < 10 then Char.ofNat (48 + n) else Char.ofNat (87 + n)

/-- Lowercase hex rendering of a byte list, as Python's `.hexdigest()`. -/
def bytesToHexLower (bs : List Nat) : String :=
  String.mk ((bs.map fun b => [hexDigitLower (b / 16), hexDigitLower (b % 16)]).flatten)

/-- Python `str.upper()` for the ASCII strings the handlers uppercase
(HTTP verbs and hex digests): `Char.toUpper` over the characters. -/
def pyUpper (s : String) : String := String.mk (s.data.map Char.toUpper)

/-! ## SHA-256 (FIPS 180-4), arithmetic over `Nat` modulo `2 ^ 32`

The eight working variables are packed into a single `Nat` (eight 32-bit
words, word 0 in the low bits), which keeps every intermediate state a
plain numeral during evaluation. -/

/-- `2 ^ 32`, the modulus for 32-bit wrapping arithmetic. -/
def pow32 : Nat := 4294967296

/-- Right rotation of a 32-bit word held in a `Nat`. -/
def rotr32 (n x : Nat) : Nat :=
  (x >>> n) ||| ((x &&& (2 ^ n - 1)) <<< (32 - n))

/-- Bitwise complement within 32 bits (valid for `x < 2 ^ 32`). -/
def bnot32 (x : Nat) : Nat := 4294967295 - x

/-- Trial-division primality test (complete for `n < 400`), used to
generate the SHA-256 constants. -/
def isPrimeNat (n : Nat) : Bool :=
  decide (2 ≤ n) && ((List.range 20).all fun d => d < 2 || d * d > n || n % d != 0)

/-- The first 64 primes (2, 3, 5, ...), generators of the SHA-256 constants. -/
def sha256Primes : List Nat :=
  ((List.range 400).filter isPrimeNat).take 64

/-- Integer cube root by binary search (fuel-driven auxiliary). -/
def cbrtAux : Nat → Nat → Nat → Nat → Nat
  | 0, lo, _, _ => lo
  | fuel + 1, lo, hi, n =>
    if hi ≤ lo + 1 then lo
    else
      let mid := (lo + hi) / 2
      if mid * mid * mid ≤ n then cbrtAux fuel mid hi n else cbrtAux fuel lo mid n

/-- Integer cube root: the largest `r` with `r ^ 3 ≤ n` (for `n < 2 ^ 128`). -/
def natCbrt (n : Nat) : Nat := cbrtAux 130 0 (n + 1) n

/-- Integer square root by binary search (fuel-driven auxiliary). -/
def sqrtAux : Nat → Nat → Nat → Nat → Nat
  | 0, lo, _, _ => lo
  | fuel + 1, lo, hi, n =>
    if hi ≤ lo + 1 then lo
    else
      let mid := (lo + hi) / 2
      if mid * mid ≤ n then sqrtAux fuel mid hi n else sqrtAux fuel lo mid n

/-- Integer square root: the largest `r` with `r ^ 2 ≤ n` (for `n < 2 ^ 128`). -/
def natSqrt (n : Nat) : Nat := sqrtAux 130 0 (n + 1) n

/-- The 64 SHA-256 round constants: the first 32 bits of the fractional parts
of the cube roots of the first 64 primes. -/
def sha256K : List Nat :=
  sha256Primes.map fun p => natCbrt (p <<< 96) % pow32

/-- The 8 SHA-256 initial hash words: the first 32 bits of the fractional
parts of the square roots of the first 8 primes. -/
def sha256H0 : List Nat :=
  (sha256Primes.take 8).map fun p => natSqrt (p <<< 64) % pow32

/-- Word `i` of a packed state. -/
def getw (st i : Nat) : Nat := (st >>> (32 * i)) % pow32

/-- Pack eight 32-bit words into one `Nat` (word `a` in the low bits). -/
def pack8 (a b c d e f g h : Nat) : Nat :=
  a + (b <<< 32) + (c <<< 64) + (d <<< 96) + (e <<< 128) + (f <<< 160) +
    (g <<< 192) + (h <<< 224)

/-- One SHA-256 round: absorb a (round constant, schedule word) pair. -/
def sha256Round (st : Nat) (kw : Nat × Nat) : Nat :=
  let a := getw st 0
  let b := getw st 1
  let c := getw st 2
  let d := getw st 3
  let e := getw st 4
  let f := getw st 5
  let g := getw st 6
  let h := getw st 7
  let s1 := rotr32 6 e ^^^ rotr32 11 e ^^^ rotr32 25 e
  let ch := (e &&& f) ^^^ (bnot32 e &&& g)
  let t1 := (h + s1 + ch + kw.1 + kw.2) % pow32
  let s0 := rotr32 2 a ^^^ rotr32 13 a ^^^ rotr32 22 a
  let mj := (a &&& b) ^^^ (a &&& c) ^^^ (b &&& c)
  let t2 := (s0 + mj) % pow32
  pack8 ((t1 + t2) % pow32) a b c ((d + t1) % pow32) e f g

/-- Message-schedule extension: prepend 48 further words (most recent first). -/
def sha256ScheduleAux : Nat → List Nat → List Nat
  | 0, acc => acc
  | n + 1, acc =>
    let g := fun (i : Nat) => (acc.get? i).getD 0
    let s0 := rotr32 7 (g 14) ^^^ rotr32 18 (g 14) ^^^ (g 14 >>> 3)
    let s1 := rotr32 17 (g 1) ^^^ rotr32 19 (g 1) ^^^ (g 1 >>> 10)
    sha256ScheduleAux n (((s1 + g 6 + s0 + g 15) % pow32) :: acc)

/-- The 64-word message schedule of a 16-word block. -/
def sha256Schedule (block : List Nat) : List Nat :=
  (sha256ScheduleAux 48 block.reverse).reverse

/-- SHA-256 compression of one 16-word block into the chaining state. -/
def sha256Compress (st0 : Nat) (block : List Nat) : Nat :=
  let st := (sha256K.zip (sha256Schedule block)).foldl sha256Round st0
  pack8 ((getw st0 0 + getw st 0) % pow32) ((getw st0 1 + getw st 1) % pow32)
    ((getw st0 2 + getw st 2) % pow32) ((getw st0 3 + getw st 3) % pow32)
    ((getw st0 4 + getw st 4) % pow32) ((getw st0 5 + getw st 5) % pow32)
    ((getw st0 6 + getw st 6) % pow32) ((getw st0 7 + getw st 7) % pow32)

/-- The initial SHA-256 chaining state. -/
def sha256Init : Nat :=
  let g := fun (i : Nat) => (sha256H0.get? i).getD 0
  pack8 (g 0) (g 1) (g 2) (g 3) (g 4) (g 5) (g 6) (g 7)

/-- Big-endian 8-byte rendering of a (`< 2 ^ 64`) bit-length field. -/
def lenBytes8 (n : Nat) : List Nat :=
  [(n >>> 56) % 256, (n >>> 48) % 256, (n >>> 40) % 256, (n >>> 32) % 256,
   (n >>> 24) % 256, (n >>> 16) % 256, (n >>> 8) % 256, n % 256]

/-- SHA-256 padding: `0x80`, zeros to 56 mod 64, then the 64-bit bit length. -/
def sha256Pad (msg : List Nat) : List Nat :=
  let L := msg.length
  msg ++ 128 :: List.replicate ((119 - L % 64) % 64) 0 ++ lenBytes8 (8 * L)

/-- Group bytes into big-endian 32-bit words. -/
def bytesToWords : List Nat → List Nat
  | b1 :: b2 :: b3 :: b4 :: rest =>
    (((b1 * 256 + b2) * 256 + b3) * 256 + b4) :: bytesToWords rest
  | _ => []

/-- Split a word list into 16-word blocks (fuel-driven). -/
def chunk16 : Nat → List Nat → List (List Nat)
  | 0, _ => []
  | _, [] => []
  | fuel + 1, ws => ws.take 16 :: chunk16 fuel (ws.drop 16)

/-- Big-endian 4-byte rendering of a 32-bit word. -/
def wordBytes (w : Nat) : List Nat :=
  [(w >>> 24) % 256, (w >>> 16) % 256, (w >>> 8) % 256, w % 256]

/-- SHA-256 of a byte list, as a 32-byte digest. -/
def sha256Bytes (msg : List Nat) : List Nat :=
  let ws := bytesToWords (sha256Pad msg)
  let st := (chunk16 ws.length ws).foldl sha256Compress sha256Init
  wordBytes (getw st 0) ++ wordBytes (getw st 1) ++ wordBytes (getw st 2) ++
    wordBytes (getw st 3) ++ wordBytes (getw st 4) ++ wordBytes (getw st 5) ++
    wordBytes (getw st 6) ++ wordBytes (getw st 7)

/-- Python `hashlib.sha256(s.encode("utf-8")).hexdigest()`. -/
def sha256Hex (s : String) : String :=
  bytesToHexLower (sha256Bytes (utf8Bytes s))

/-- HMAC-SHA256 (FIPS 198-1) over byte lists. -/
def hmacSha256Bytes (key msg : List Nat) : List Nat :=
  let k0 := if 64 < key.length then sha256Bytes key else key
  let kp := k0 ++ List.replicate (64 - k0.length) 0
  sha256Bytes ((kp.map fun b => b ^^^ 92) ++
    sha256Bytes ((kp.map fun b => b ^^^ 54) ++ msg))

/-- Python `hmac.new(key.encode("utf-8"), msg.encode("utf-8"),
hashlib.sha256).hexdigest()`: lowercase-hex HMAC-SHA256 of UTF-8 strings. -/
def hmacSha256Hex (key msg : String) : String :=
  bytesToHexLower (hmacSha256Bytes (utf8Bytes key) (utf8Bytes msg))

/-! ## A model of the Python values the handlers manipulate

JSON-shaped Python values (the results of `json.loads` and the payloads
of `json.dumps`).  Numbers are modelled as integers: every payload the
handlers construct or inspect in the claims below is integral, and
floating point is outside the scope of this embedding. -/

/-- JSON-shaped Python values. -/
inductive JVal where
  | null : JVal
  | jb : Bool → JVal
  | jn : Int → JVal
  | js : String → JVal
  | ja : List JVal → JVal
  | jo : List (String × JVal) → JVal

/-- Python `dict.get`: first binding of a key in an association list
(Python dicts have unique keys). -/
def pyGet : List (String × JVal) → String → Option JVal
  | [], _ => none
  | (k, v) :: rest, key => if k = key then some v else pyGet rest key

/-- Python `dict.get` with a default. -/
def pyGetD (o : List (String × JVal)) (k : String) (d : JVal) : JVal :=
  (pyGet o k).getD d

/-- Python truthiness of a JSON-shaped value. -/
def pyTruthy : JVal → Bool
  | .null => false
  | .jb b => b
  | .jn n => n != 0
  | .js s => s != ""
  | .ja xs => !xs.isEmpty
  | .jo kvs => !kvs.isEmpty

/-- Python `repr` of a JSON-shaped value, fuel-driven over the nesting
depth (Python itself is limited by its recursion limit).  The quoting of
strings is the common case (single quotes, no escaping): no claim below
depends on `repr` of a string containing quotes or control characters. -/
def pyReprF : Nat → JVal → String
  | _, .null => "None"
  | _, .jb true => "True"
  | _, .jb false => "False"
  | _, .jn n => toString n
  | _, .js s => "'" ++ s ++ "'"
  | 0, _ => ""
  | fuel + 1, .ja xs => "[" ++ String.intercalate ", " (xs.map (pyReprF fuel)) ++ "]"
  | fuel + 1, .jo kvs =>
    "\x7b" ++
      String.intercalate ", "
        (kvs.map fun kv => "'" ++ kv.1 ++ "': " ++ pyReprF fuel kv.2) ++ "\x7d"

/-- Python `str()` of a JSON-shaped value: strings unchanged, scalars as
Python renders them, collections via `repr`. -/
def pyStr : JVal → String
  | .js s => s
  | .jn n => toString n
  | .jb true => "True"
  | .jb false => "False"
  | .null => "None"
  | v => pyReprF 1000 v

/-- Lowercase 4-digit hex rendering for `\uXXXX` escapes. -/
def hex4Lower (n : Nat) : String :=
  String.mk [hexDigitLower (n / 4096 % 16), hexDigitLower (n / 256 % 16),
    hexDigitLower (n / 16 % 16), hexDigitLower (n % 16)]

/-- One character of a JSON string under Python `json.dumps` with
`ensure_ascii=True`: the two-character escapes, `\uXXXX` for other
control or non-ASCII characters (surrogate pairs beyond the BMP). -/
def jsonEscapeChar (c : Char) : String :=
  let n := c.toNat
  if n = 34 then "\\\""
  else if n = 92 then "\\\\"
  else if n = 10 then "\\n"
  else if n = 13 then "\\r"
  else if n = 9 then "\\t"
  else if n = 8 then "\\b"
  else if n = 12 then "\\f"
  else if n < 32 || 126 < n then
    if n < 65536 then "\\u" ++ hex4Lower n
    else
      "\\u" ++ hex4Lower (55296 + (n - 65536) / 1024) ++
        "\\u" ++ hex4Lower (56320 + (n - 65536) % 1024)
  else String.singleton c

/-- A JSON string literal as `json.dumps` renders it. -/
def jsonQuote (s : String) : String :=
  "\"" ++ String.join (s.data.map jsonEscapeChar) ++ "\""

/-- Python `json.dumps(v, separators=(",", ":"))`: compact JSON with no
whitespace, keys in insertion order.  Fuel-driven over the nesting depth
(Python itself raises `RecursionError` past its recursion limit). -/
def compactJsonF : Nat → JVal → String
  | _, .null => "null"
  | _, .jb true => "true"
  | _, .jb false => "false"
  | _, .jn n => toString n
  | _, .js s => jsonQuote s
  | 0, _ => ""
  | fuel + 1, .ja xs => "[" ++ String.intercalate "," (xs.map (compactJsonF fuel)) ++ "]"
  | fuel + 1, .jo kvs =>
    "\x7b" ++
      String.intercalate ","
        (kvs.map fun kv => jsonQuote kv.1 ++ ":" ++ compactJsonF fuel kv.2) ++ "\x7d"

/-- Compact JSON serialization (see `compactJsonF`). -/
def compactJson (v : JVal) : String := compactJsonF 1000 v

/-! ## `urllib` query canonicalization -/

/-- Uppercase hexadecimal digit for a value `< 16`. -/
def hexDigitUpper (n : Nat) : Char :=
  if n < 10 then Char.ofNat (48 + n) else Char.ofNat (55 + n)

/-- One byte under `urllib.parse.quote_plus`: letters, digits and
`_.-~` kept, space to `+`, anything else percent-encoded (uppercase). -/
def quotePlusByte (b : Nat) : String :=
  if (48 ≤ b && b ≤ 57) || (65 ≤ b && b ≤ 90) || (97 ≤ b && b ≤ 122) ||
      b = 95 || b = 46 || b = 45 || b = 126 then
    String.singleton (Char.ofNat b)
  else if b = 32 then "+"
  else "%" ++ String.mk [hexDigitUpper (b / 16), hexDigitUpper (b % 16)]

/-- Python `urllib.parse.quote_plus` over the UTF-8 bytes of a string. -/
def quotePlus (s : String) : String :=
  String.join ((utf8Bytes s).map quotePlusByte)

/-- Values of query-string parameters (`None`, strings, integers,
booleans — the shapes the handlers pass). -/
inductive QVal where
  | qnone : QVal
  | qstr : String → QVal
  | qint : Int → QVal
  | qbool : Bool → QVal
deriving DecidableEq

/-- Python `str()` of a query value. -/
def pyStrQ : QVal → String
  | .qnone => "None"
  | .qstr s => s
  | .qint n => toString n
  | .qbool true => "True"
  | .qbool false => "False"

/-- Stable insertion of a pair by key order (Python string comparison is
code-point lexicographic, as Lean's `String` order is). -/
def insertByKey (kv : String × QVal) : List (String × QVal) → List (String × QVal)
  | [] => [kv]
  | hd :: tl => if kv.1 ≤ hd.1 then kv :: hd :: tl else hd :: insertByKey kv tl

/-- Sort query pairs lexicographically by key, as Python
`sorted(d.items())` does on a dict (keys are unique, so only the keys
are ever compared). -/
def sortPairsByKey : List (String × QVal) → List (String × QVal)
  | [] => []
  | kv :: rest => insertByKey kv (sortPairsByKey rest)

/-- Python `urlencode(pairs, doseq=True)` for string/scalar values:
`quote_plus(str(k)) ++ "=" ++ quote_plus(str(v))` joined with `&`. -/
def urlencodePairs (pairs : List (String × QVal)) : String :=
  String.intercalate "&" (pairs.map fun kv => quotePlus kv.1 ++ "=" ++ quotePlus (pyStrQ kv.2))

/-! ## Numeric coercions used by the handlers

Python `int(...)` / `float(...)` / `Decimal(str(...))` on JSON-shaped
values, in the integral model (raising conversions become errors). -/

/-- Python `int(v)`: integers, booleans and integral strings succeed. -/
def pyIntOfJ : JVal → Except Unit Int
  | .jn n => .ok n
  | .jb true => .ok 1
  | .jb false => .ok 0
  | .js s => match s.toInt? with | some n => .ok n | none => .error ()
  | _ => .error ()

/-- Python `float(v)` in the integral model. -/
def pyFloatOfJ : JVal → Except Unit Int := pyIntOfJ

/-- Python `Decimal(str(v))` in the integral model: `str` of a boolean,
`None` or a collection is not a valid decimal literal and raises. -/
def pyDecimalOfStr : JVal → Except Unit Int
  | .jn n => .ok n
  | .js s => match s.toInt? with | some n => .ok n | none => .error ()
  | _ => .error ()

namespace LambdaFunction

/-!
Embedding of `aws_webhook/lambda_function.py`.  `APP_SECRET` and the
DynamoDB tables are environment inputs and appear as parameters; the
mapping table is the partial function a successful `get_item` denotes;
`time.time()` is the `now` parameter.  DynamoDB writes and the plug
control call are recorded in a `WebhookOutcome`; an uncaught Python
exception is `Except.error ()`.
-/

/-- `_verify_signature`: the `try`-wrapped HMAC check.  A non-dict block
raises `AttributeError` inside the `try` and yields `False`, and a
non-string `token` or `signature` raises `TypeError` in `ts + token` or
`hmac.compare_digest` and also yields `False`.  `hmac.compare_digest` on
the (always-ASCII) expected hex digest is string equality. -/
def _verify_signature (APP_SECRET : String) (signature_block : JVal) : Bool :=
  match signature_block with
  | .jo b =>
    let ts := pyStr (pyGetD b "timestamp" (.js ""))
    let token := pyGetD b "token" (.js "")
    let sig := pyGetD b "signature" (.js "")
    if APP_SECRET = "" || ts = "" || !pyTruthy token || !pyTruthy sig then false
    else
      match token, sig with
      | .js tok, .js s => hmacSha256Hex APP_SECRET (ts ++ tok) == s
      | _, _ => false
  | _ => false

/-- The item `save_sensor_reading` writes (Decimal fields in the
integral model). -/
structure SavedReading where
  sensor_mac : JVal
  ts : Int
  pm25 : Int
  pm10 : Int
  co2 : Int
  temperature : Int
  humidity : Int
  battery : Int
  received_at : Int

/-- `reading.get(name, {}).get("value", 0)`: raises (`AttributeError`)
when the field is present but not a dict. -/
def readingValue (r : List (String × JVal)) (name : String) : Except Unit JVal :=
  match pyGetD r name (.jo []) with
  | .jo o => .ok (pyGetD o "value" (.jn 0))
  | _ => .error ()

/-- `save_sensor_reading` (the item construction; the `put_item` call is
the recorded effect and its own `try`/`except` swallows storage errors,
so only the field conversions can raise). -/
def save_sensor_reading (now : Int) (sensor_mac : JVal) (reading : JVal) :
    Except Unit SavedReading :=
  match reading with
  | .jo r => do
    let ts_sec ← readingValue r "timestamp" >>= pyIntOfJ
    let pm25 ← readingValue r "pm25" >>= pyDecimalOfStr
    let pm10 ← readingValue r "pm10" >>= pyDecimalOfStr
    let co2 ← readingValue r "co2" >>= pyDecimalOfStr
    let temperature ← readingValue r "temperature" >>= pyDecimalOfStr
    let humidity ← readingValue r "humidity" >>= pyDecimalOfStr
    let battery ← readingValue r "battery" >>= pyDecimalOfStr
    .ok ⟨sensor_mac, ts_sec, pm25, pm10, co2, temperature, humidity, battery, now⟩
  | _ => .error ()

/-- The `for reading in data_list:` loop of saved readings: each
iteration runs `save_sensor_reading`; a raising conversion aborts the
handler (readings already saved are in the store but the handler's
response is the surfaced exception either way). -/
def saveAll (now : Int) (mac : JVal) : List JVal → Except Unit (List SavedReading)
  | [] => .ok []
  | r :: rest => do
    let s ← save_sensor_reading now mac r
    let ss ← saveAll now mac rest
    .ok (s :: ss)

/-- `get_plug_device_id_for_sensor`: `mapping` is the lookup a
successful `get_item` denotes (the `except` branch returning `None` is
the `none` case of `mapping`). -/
def get_plug_device_id_for_sensor (mapping : JVal → Option (List (String × JVal)))
    (sensor_mac : JVal) : Option JVal :=
  match mapping sensor_mac with
  | some item =>
    if !item.isEmpty && pyTruthy (pyGetD item "enabled" (.jb true)) then
      pyGet item "tuya_device_id"
    else none
  | none => none

/-- What `handle_qingping_webhook` did: the HTTP status, the readings
saved, and the plug-control attempt (device id value, requested switch
state), if any. -/
structure WebhookOutcome where
  statusCode : Nat
  saves : List SavedReading
  control : Option (JVal × Bool)

/-- Truthiness of `info.get("mac")`-style optional values. -/
def truthyOpt : Option JVal → Bool
  | some v => pyTruthy v
  | none => false

/-- `handle_qingping_webhook`.  `parsed` is the outcome of
`json.loads(body)`; the handler is reached (via `_is_qingping_webhook`)
only for dict payloads, and a non-dict payload would raise at
`payload.get` (`Except.error`).  `control_plug` failures are caught and
logged, so the attempt itself is the recorded outcome. -/
def handle_qingping_webhook (secret : String)
    (mapping : JVal → Option (List (String × JVal))) (now : Int)
    (parsed : Except Unit JVal) : Except Unit WebhookOutcome :=
  match parsed with
  | .error _ => .ok ⟨400, [], none⟩
  | .ok payload =>
    match payload with
    | .jo p =>
      let sig_block := pyGetD p "signature" (.jo [])
      if !_verify_signature secret sig_block then .ok ⟨401, [], none⟩
      else
        match pyGetD p "payload" (.jo []) with
        | .jo pl =>
          match pyGetD pl "info" (.jo []) with
          | .jo io =>
            let sensor_mac := pyGet io "mac"
            let data_list := pyGetD pl "data" (.ja [])
            if !truthyOpt sensor_mac || !pyTruthy data_list then
              .ok ⟨200, [], none⟩
            else
              match data_list, sensor_mac with
              | .ja readings, some mac => do
                let saves ← saveAll now mac readings
                match readings.getLast? with
                | some (.jo lo) => do
                  let pm25 ← readingValue lo "pm25" >>= pyFloatOfJ
                  let pdi := get_plug_device_id_for_sensor mapping mac
                  if truthyOpt pdi then
                    .ok ⟨200, saves, some (pdi.getD .null, decide (9 ≤ pm25))⟩
                  else .ok ⟨200, saves, none⟩
                | _ => .error ()
              | _, _ => .error ()
          | _ => .error ()
        | _ => .error ()
    | _ => .error ()

/-- The per-process Tuya token cache (`_TUYA_TOKEN_CACHE`). -/
structure TokenCache where
  token : Option String
  expires_at : Int
deriving DecidableEq

/-- The parsed body of the Tuya `/v1.0/token` response: the `success`
flag, and the `result` fields (`none` models a missing key). -/
structure TuyaTokenResp where
  success : Bool
  access_token : Option String
  expire_time : Option Int
deriving DecidableEq

/-- `get_tuya_token`: returns the token, the cache afterwards, and the
number of network calls made (0 on a cache hit).  The vendor response to
the exchange, when one is made, is the `resp` parameter; exceptions
(auth failure, missing `access_token` key) are `Except.error` raised
before any cache write. -/
def get_tuya_token (cache : TokenCache) (now : Int) (resp : TuyaTokenResp) :
    Except String (String × TokenCache × Nat) :=
  if cache.token.getD "" ≠ "" && now < cache.expires_at then
    .ok (cache.token.getD "", cache, 0)
  else if !resp.success then .error "Tuya auth failed"
  else
    match resp.access_token with
    | none => .error "KeyError: access_token"
    | some token =>
      let expire_seconds := resp.expire_time.getD 7200
      .ok (token, ⟨some token, now + expire_seconds - 60⟩, 1)

end LambdaFunction

namespace WebhookServer

/-!
Embedding of `src/webhook_server.py` (`receive_data`): the whole body is
one `try`, so a JSON parse failure, an `AttributeError` on a non-dict
payload, or a `TypeError` from concatenating a non-string token all fall
into the `except` branch, which answers 500.  The signature comparison
is the plain `!=` operator (which never raises, even across types).
-/

/-- `receive_data`: HTTP status and the `status` field of the JSON
answer. -/
def receive_data (APP_SECRET : String) (parsed : Except Unit JVal) : Nat × String :=
  match parsed with
  | .error _ => (500, "error")
  | .ok p =>
    match p with
    | .jo o =>
      match pyGetD o "signature" (.jo []) with
      | .jo b =>
        let token := pyGetD b "token" (.js "")
        let ts := pyStr (pyGetD b "timestamp" (.js ""))
        let sig := pyGetD b "signature" (.js "")
        match token with
        | .js tok =>
          let expected := hmacSha256Hex APP_SECRET (ts ++ tok)
          if (match sig with | .js s => s != expected | _ => true) then (401, "unauthorized")
          else (200, "ok")
        | _ => (500, "error")
      | _ => (500, "error")
    | _ => (500, "error")

end WebhookServer

namespace FetchTuyaPlugs

/-!
Embedding of `aws_webhook/qingping_list_devices.py`-style credentials is
not needed here; this namespace embeds `aws_webhook/fetch_tuya_plugs_list.py`:
the canonical query builder, the request signer, the token cache and the
offset/page-size paginated device listing.  `TUYA_ACCESS_ID` /
`TUYA_ACCESS_SECRET` are parameters, as are the per-request timestamp
and nonce the source draws from `time.time()` and `uuid.uuid4()`.
-/

/-- `_sha256_hex`. -/
def _sha256_hex (s : String) : String := sha256Hex s

/-- `_build_canonical_query`: `if not query` (false for `None` and the
empty dict), drop pairs with a `None` or stringwise-empty value, sort by
key, URL-encode.  Query dicts have unique keys, so Python's tuple sort
only ever compares keys. -/
def _build_canonical_query (query : Option (List (String × QVal))) : String :=
  match query with
  | none => ""
  | some q =>
    if q.isEmpty then ""
    else
      let cleaned := q.filter fun kv => kv.2 ≠ QVal.qnone && pyStrQ kv.2 != ""
      urlencodePairs (sortPairsByKey cleaned)

/-- `_tuya_sign`: the HMAC-SHA256 signature of the canonical message,
hex-encoded and uppercased. -/
def _tuya_sign (TUYA_ACCESS_ID TUYA_ACCESS_SECRET : String)
    (method path_with_query body_str access_token t_ms nonce : String) : String :=
  let content_sha256 := if body_str ≠ "" then _sha256_hex body_str else sha256Hex ""
  let string_to_sign := pyUpper method ++ "\n" ++ content_sha256 ++ "\n\n" ++ path_with_query
  let message := TUYA_ACCESS_ID ++ access_token ++ t_ms ++ nonce ++ string_to_sign
  pyUpper (hmacSha256Hex TUYA_ACCESS_SECRET message)

/-- The body serialization in `tuya_request`:
`json.dumps(body, separators=(",", ":")) if body else ""` — an absent or
empty-dict body serializes to the empty string. -/
def bodyStrOf (body : Option (List (String × JVal))) : String :=
  match body with
  | some b => if b.isEmpty then "" else compactJson (.jo b)
  | none => ""

/-- The signature `tuya_request` computes for an outbound request (the
part of `tuya_request` up to the `sign` header; the HTTP exchange
itself is outside the model). -/
def tuya_request_sign (TUYA_ACCESS_ID TUYA_ACCESS_SECRET : String)
    (method path : String) (token : String)
    (query : Option (List (String × QVal))) (body : Option (List (String × JVal)))
    (t_ms nonce : String) : String :=
  let method := pyUpper method
  let body_str := bodyStrOf body
  let qs := _build_canonical_query query
  let path_with_query := path ++ (if qs ≠ "" then "?" ++ qs else "")
  _tuya_sign TUYA_ACCESS_ID TUYA_ACCESS_SECRET method path_with_query body_str token t_ms nonce

/-- The `result` object of the Tuya token response
(`data.get("result") or {}` already applied; `none` models a missing
key). -/
structure TuyaResult where
  access_token : Option String
  expire_time : Option Int
deriving DecidableEq

/-- `get_tuya_token` of `fetch_tuya_plugs_list.py`: note the missing
`expire_time` defaults to 7200 and no sign check is made on it. -/
def get_tuya_token (cache : LambdaFunction.TokenCache) (now : Int) (result : TuyaResult) :
    Except String (String × LambdaFunction.TokenCache × Nat) :=
  if cache.token.getD "" ≠ "" && now < cache.expires_at then
    .ok (cache.token.getD "", cache, 0)
  else
    let token := result.access_token.getD ""
    let expire_seconds := result.expire_time.getD 7200
    if token = "" then .error "token missing in response"
    else .ok (token, ⟨some token, now + expire_seconds - 60⟩, 1)

/-- The body of the `while True` loop of `list_all_devices_in_space`
over the successive pages the vendor answers (each page is
`resp.get("result") or []`); `getId` is `device.get("id")`.  `none`
means the loop would issue a further request past the supplied pages. -/
def listGo (getId : α → Option String) :
    List (List α) → Option String → List α → Option (List α)
  | [], _, _ => none
  | items :: rest, _, acc =>
    if items.isEmpty then some acc
    else
      let acc2 := acc ++ items
      let last2 := match items.getLast? with | some d => getId d | none => none
      if items.length < 20 then some acc2 else listGo getId rest last2 acc2

/-- `list_all_devices_in_space` (page_size = 20). -/
def list_all_devices_in_space (getId : α → Option String) (pages : List (List α)) :
    Option (List α) :=
  listGo getId pages none []

end FetchTuyaPlugs

namespace QingpingBind

/-!
Embedding of `aws_webhook/qingping_bind_device.py`:
`get_qingping_access_token`, the OAuth2 client-credentials token cache.
-/

/-- The parsed OAuth token response (`none` models a missing key). -/
structure OAuthResp where
  access_token : Option String
  expires_in : Option Int
deriving DecidableEq

/-- `get_qingping_access_token`: `now = int(time.time())`; a missing or
non-positive `expires_in` (default 0) raises before any cache write. -/
def get_qingping_access_token (appKey appSecret : String)
    (cache : LambdaFunction.TokenCache) (now : Int) (resp : OAuthResp) :
    Except String (String × LambdaFunction.TokenCache × Nat) :=
  if cache.token.getD "" ≠ "" && now < cache.expires_at then
    .ok (cache.token.getD "", cache, 0)
  else if appKey = "" || appSecret = "" then
    .error "Missing QINGPING_APP_KEY or QINGPING_APP_SECRET env var"
  else
    let token := resp.access_token.getD ""
    let expires_in := resp.expires_in.getD 0
    if token = "" || expires_in ≤ 0 then .error "Unexpected token response"
    else .ok (token, ⟨some token, now + expires_in - 60⟩, 1)

end QingpingBind

namespace QingpingListDevices

/-!
Embedding of `aws_webhook/qingping_list_devices.py`: its token cache
(note: `expires_in` defaults to 7200 and is not sign-checked) and the
device-registry reconciliation of `lambda_handler`.
-/

/-- `get_qingping_access_token` of `qingping_list_devices.py`. -/
def get_qingping_access_token (cache : LambdaFunction.TokenCache) (now : Int)
    (resp : QingpingBind.OAuthResp) :
    Except String (String × LambdaFunction.TokenCache × Nat) :=
  if cache.token.getD "" ≠ "" && now < cache.expires_at then
    .ok (cache.token.getD "", cache, 0)
  else
    let token := resp.access_token.getD ""
    let expires_in := resp.expires_in.getD 7200
    if token = "" then .error "Failed to obtain Qingping access token"
    else .ok (token, ⟨some token, now + expires_in - 60⟩, 1)

/-- The write set of the reconciliation in `lambda_handler`: the macs
put (`qingping_macs - db_macs`) and the macs deleted
(`db_macs - qingping_macs`).  `qingping_devices` and `db_devices` are
the two keyed collections (dicts keyed by mac, hence finite key sets). -/
def syncWrites (qingping_devices db_devices : List (String × α)) :
    Finset String × Finset String :=
  let qingping_macs := (qingping_devices.map Prod.fst).toFinset
  let db_macs := (db_devices.map Prod.fst).toFinset
  (qingping_macs \ db_macs, db_macs \ qingping_macs)

end QingpingListDevices

namespace SensorPlugBind

/-!
Embedding of `aws_webhook/qingpingSensor_plug_bind.py`:
`upsert_mapping` over the `SensorPlugMapping` table, modelled as an
association list in which `put_item` prepends (lookups take the newest
binding).
-/

/-- One row of the `SensorPlugMapping` table.  `created_at` is optional
because a pre-existing row may lack the attribute (the code tests
`"created_at" in existing`). -/
structure MappingItem where
  sensor_mac : String
  tuya_device_id : String
  enabled : Bool
  updated_at : Int
  created_at : Option Int
  user_id : Option String
deriving DecidableEq

/-- The mapping table. -/
abbrev MTable := List (String × MappingItem)

/-- `get_item` on the mapping table. -/
def mlookup : MTable → String → Option MappingItem
  | [], _ => none
  | (k, v) :: rest, key => if k = key then some v else mlookup rest key

/-- `upsert_mapping`: read-before-write preserving `created_at`, always
refreshing `updated_at`; `user_id` is stored only when truthy.  Returns
the written item and the table afterwards. -/
def upsert_mapping (tbl : MTable) (sensor_mac tuya_device_id : String)
    (enabled : Bool) (user_id : Option String) (now : Int) : MappingItem × MTable :=
  let existing := mlookup tbl sensor_mac
  let created_at :=
    match existing with
    | some ex => match ex.created_at with | some c => c | none => now
    | none => now
  let item : MappingItem :=
    ⟨sensor_mac, tuya_device_id, enabled, now, some created_at,
      if user_id.getD "" ≠ "" then user_id else none⟩
  (item, (sensor_mac, item) :: tbl)

/-- A sequence of `upsert_mapping` calls on one sensor key: each call
carries its wall-clock time, device id and enabled flag. -/
def runUpserts (mac : String) : List (Int × String × Bool) → MTable → MTable
  | [], tbl => tbl
  | (t, dev, en) :: rest, tbl =>
    runUpserts mac rest (upsert_mapping tbl mac dev en none t).2

end SensorPlugBind

namespace DownloadCsv

/-!
Embedding of `aws_webhook/download_sensor_and_plug_csv.py`:
`tuya_fetch_switch_logs`, the opaque-cursor paginated log drain.
-/

/-- One page answered by the vendor: the `result` fields the loop reads
(`has_more` and `last_row_key` as the JSON values present, `JVal.null`
modelling a missing key, so `bool(result.get("has_more"))` is
`pyTruthy`). -/
structure LogPage (α : Type) where
  logs : List α
  has_more : JVal
  last_row_key : JVal

/-- The body of the `while True` loop of `tuya_fetch_switch_logs` over
successive pages: extend, then continue only while `has_more` is truthy
AND the (`or ""`-defaulted) cursor is truthy.  `none` means the loop
would issue a further request past the supplied pages. -/
def fetchGo : List (LogPage α) → List α → Option (List α)
  | [], _ => none
  | p :: rest, acc =>
    let acc2 := acc ++ p.logs
    let has_more := pyTruthy p.has_more
    let last_row_key := if pyTruthy p.last_row_key then p.last_row_key else .js ""
    if !has_more || !pyTruthy last_row_key then some acc2 else fetchGo rest acc2

/-- `tuya_fetch_switch_logs` over the pages the vendor answers. -/
def tuya_fetch_switch_logs (pages : List (LogPage α)) : Option (List α) :=
  fetchGo pages []

end DownloadCsv

namespace TuyaSignSpec

/-!
The outbound-signature recipe as the specification words it, for
comparison with the embedded `tuya_request` / `_tuya_sign`.
-/

/-- "compact-JSON(b) if b present else the empty string" — the
specification's body serialization, literally. -/
def bodyJson : Option (List (String × JVal)) → String
  | some b => compactJson (.jo b)
  | none => ""

/-- The amended body serialization: a present but *empty* JSON-object
body is treated like an absent body (serialized to the empty string),
as the code's `if body` truthiness check does. -/
def bodyJsonAmended : Option (List (String × JVal)) → String
  | some b => if b.isEmpty then "" else compactJson (.jo b)
  | none => ""

/-- The specification's query string: drop null/empty-valued
parameters, sort the survivors lexicographically by key, URL-encode and
join with `&`. -/
def queryString (query : Option (List (String × QVal))) : String :=
  match query with
  | none => ""
  | some q =>
    urlencodePairs (sortPairsByKey (q.filter fun kv => kv.2 ≠ QVal.qnone && pyStrQ kv.2 != ""))

/-- The signature as the specification describes it: HMAC-SHA256, keyed
by the client secret, hex-encoded then uppercased, of
`client_id + token + t + nonce + (uppercase(method) + "\n" +
hex(SHA-256(body serialization)) + "\n" + "\n" + path-with-query)`,
where the `?` is omitted when no query parameters survive filtering. -/
def signSpecWith (bodySer : Option (List (String × JVal)) → String)
    (clientId secret method path token t nonce : String)
    (query : Option (List (String × QVal))) (body : Option (List (String × JVal))) : String :=
  let qs := queryString query
  let pathWithQuery := path ++ (if qs ≠ "" then "?" ++ qs else "")
  let stringToSign :=
    pyUpper method ++ "\n" ++ sha256Hex (bodySer body) ++ "\n" ++ "\n" ++ pathWithQuery
  pyUpper (hmacSha256Hex secret (clientId ++ token ++ t ++ nonce ++ stringToSign))

/-- The claim's signature, verbatim (empty-object bodies serialized as
`"\x7b\x7d"`). -/
def signSpec := signSpecWith bodyJson

/-- The amended signature (empty-object bodies treated as absent). -/
def signSpecAmended := signSpecWith bodyJsonAmended

end TuyaSignSpec

/-- Whether an `Except`-modelled Python computation ran without raising. -/
def exOk {α : Type} : Except Unit α → Bool
  | .ok _ => true
  | .error _ => false

namespace LambdaFunction

/-- A webhook reading whose seven metric fields convert without
raising: `timestamp.value` passes `int()`, the six metric values pass
`Decimal(str(...))`. -/
def wellFormedReading : JVal → Bool
  | .jo o =>
    exOk (readingValue o "timestamp" >>= pyIntOfJ)
    && exOk (readingValue o "pm25" >>= pyDecimalOfStr)
    && exOk (readingValue o "pm10" >>= pyDecimalOfStr)
    && exOk (readingValue o "co2" >>= pyDecimalOfStr)
    && exOk (readingValue o "temperature" >>= pyDecimalOfStr)
    && exOk (readingValue o "humidity" >>= pyDecimalOfStr)
    && exOk (readingValue o "battery" >>= pyDecimalOfStr)
  | _ => false

/-- A concrete well-formed reading for the witnesses. -/
def demoReading : JVal :=
  .jo [("timestamp", .jo [("value", .jn 100)]), ("pm25", .jo [("value", .jn 12)]),
    ("pm10", .jo [("value", .jn 1)]), ("co2", .jo [("value", .jn 2)]),
    ("temperature", .jo [("value", .jn 3)]), ("humidity", .jo [("value", .jn 4)]),
    ("battery", .jo [("value", .jn 5)])]

/-- A concrete correctly-signed signature block for the witnesses. -/
def demoSig : JVal :=
  .jo [("timestamp", .js "1"), ("token", .js "t"),
    ("signature", .js (hmacSha256Hex "k" ("1" ++ "t")))]

/-- A concrete verified webhook payload for the witnesses. -/
def demoPayload : List (String × JVal) :=
  [("signature", demoSig),
   ("payload", .jo [("info", .jo [("mac", .js "MAC")]), ("data", .ja [demoReading])])]

/-- A mapping table holding the demo sensor with `enabled: false`. -/
def demoMappingOff : JVal → Option (List (String × JVal)) := fun v =>
  match v with
  | .js s => if s = "MAC" then some [("tuya_device_id", .js "dev1"), ("enabled", .jb false)]
      else none
  | _ => none

/-- A mapping table holding the demo sensor without an `enabled` attribute. -/
def demoMappingOn : JVal → Option (List (String × JVal)) := fun v =>
  match v with
  | .js s => if s = "MAC" then some [("tuya_device_id", .js "dev1")] else none
  | _ => none

end LambdaFunction

/-! ## Helper lemmas -/

/-- FIPS 180-4 test vector: SHA-256 of the empty message. -/
theorem sha256Hex_empty_vector :
    sha256Hex "" = "e3b0c44298fc1c149afbf4c8996fb92427ae41e4649b934ca495991b7852b855" := by
  decide

/-- FIPS 180-4 test vector: SHA-256 of `"abc"`. -/
theorem sha256Hex_abc_vector :
    sha256Hex "abc" = "ba7816bf8f01cfea414140de5dae2223b00361a396177a9cb410ff61f20015ad" := by
  decide

/-- RFC 4231-style test vector pinning down the HMAC construction. -/
theorem hmacSha256Hex_rfc_vector :
    hmacSha256Hex "key" "The quick brown fox jumps over the lazy dog" =
      "f7bc83f430538424b13298e6aa6fb143ef4d59a14946175997479dbc2d1a3cd8" := by
  decide

/-- `Char.ofNat` inverts `toNat` below the surrogate range. -/
theorem char_toNat_ofNat_small (n : Nat) (h : n < 55296) : (Char.ofNat n).toNat = n := by
  have hv : Nat.isValidChar n := Or.inl h
  simp only [Char.ofNat, hv, dite_true, Char.ofNatAux, Char.toNat]
  rfl

/-- Uppercasing a character twice is uppercasing it once. -/
theorem char_toUpper_idem (c : Char) : c.toUpper.toUpper = c.toUpper := by
  unfold Char.toUpper
  by_cases h : c.toNat ≥ 97 ∧ c.toNat ≤ 122
  · rw [if_pos h]
    have ht : (Char.ofNat (c.toNat - 32)).toNat = c.toNat - 32 :=
      char_toNat_ofNat_small _ (by omega)
    rw [if_neg (by rw [ht]; omega)]
  · rw [if_neg h, if_neg h]

/-- Uppercasing a string twice is uppercasing it once (Python's
`method.upper()` applied by `tuya_request` and again by `_tuya_sign`). -/
theorem pyUpper_idem (s : String) : pyUpper (pyUpper s) = pyUpper s := by
  show String.mk (List.map Char.toUpper (String.mk (List.map Char.toUpper s.data)).data) = _
  rw [show (String.mk (List.map Char.toUpper s.data)).data = List.map Char.toUpper s.data from rfl,
    List.map_map]
  exact congrArg String.mk (List.map_congr_left fun c _ => char_toUpper_idem c)

namespace TuyaSignSpec

/-- The code's and the specification's query canonicalizations agree
(the code short-circuits an empty dict, the specification's filter
yields the empty string there anyway). -/
theorem buildCanonicalQuery_eq_queryString (q : Option (List (String × QVal))) :
    FetchTuyaPlugs._build_canonical_query q = queryString q := by
  match q with
  | none => rfl
  | some [] => rfl
  | some (kv :: rest) => rfl

/-- The code's body serialization is the amended one. -/
theorem bodyStrOf_eq_bodyJsonAmended (b : Option (List (String × JVal))) :
    FetchTuyaPlugs.bodyStrOf b = bodyJsonAmended b := by
  match b with
  | none => rfl
  | some l => rfl

end TuyaSignSpec

/-! ## Claim C1: the outbound request signature -/

/-- Two newlines are one newline appended to another. -/
theorem nl_append : ("\n\n" : String) = "\n" ++ "\n" := rfl

/-- C1, counterexample: the claim as stated fails for a present but
empty JSON-object body.  There the code serializes the body to the
empty string (Python's `if body` is false for `\x7b\x7d`) and signs
`SHA-256("")`, while the claim's recipe signs
`SHA-256(compact-JSON(\x7b\x7d))`; the two HMAC-SHA256 signatures differ. -/
theorem claim_C1_counterexample :
    FetchTuyaPlugs.tuya_request_sign "" "" "GET" "/p" "" none (some []) "" "" ≠
      TuyaSignSpec.signSpec "" "" "GET" "/p" "" "" "" none (some []) := by
  decide

/-- C1 (amended): for every outbound vendor request — method, path,
query map, optional JSON body, access token (possibly empty), timestamp
and nonce — the signature `tuya_request` produces equals HMAC-SHA256,
keyed by the client secret and hex-encoded then uppercased, of
`client_id + token + t + nonce + (uppercase(method) + "\n" +
hex(SHA-256(compact-JSON(b) if b is present and non-empty, else "")) +
"\n" + "\n" + path-with-query)`, with the query string built by
dropping null/empty-valued parameters, sorting the survivors
lexicographically by key, URL-encoding them joined with `&`, and
omitting the `?` entirely when no parameters survive. -/
theorem claim_C1_amended (cid sec m p tok t n : String)
    (q : Option (List (String × QVal))) (b : Option (List (String × JVal))) :
    FetchTuyaPlugs.tuya_request_sign cid sec m p tok q b t n =
      TuyaSignSpec.signSpecAmended cid sec m p tok t n q b := by
  unfold FetchTuyaPlugs.tuya_request_sign FetchTuyaPlugs._tuya_sign FetchTuyaPlugs._sha256_hex
  unfold TuyaSignSpec.signSpecAmended TuyaSignSpec.signSpecWith
  rw [TuyaSignSpec.buildCanonicalQuery_eq_queryString, TuyaSignSpec.bodyStrOf_eq_bodyJsonAmended]
  dsimp only
  rw [pyUpper_idem]
  by_cases hb : TuyaSignSpec.bodyJsonAmended b = ""
  · rw [hb]
    simp [nl_append, String.append_assoc]
  · rw [if_pos hb]
    simp [nl_append, String.append_assoc]

/-! ## Claim C2: webhook signature verification -/

/-- A SHA-256 digest is 32 bytes. -/
theorem sha256Bytes_length (msg : List Nat) : (sha256Bytes msg).length = 32 := by
  simp [sha256Bytes, wordBytes]

/-- Hex rendering doubles the length. -/
theorem bytesToHexLower_length (bs : List Nat) : (bytesToHexLower bs).length = 2 * bs.length := by
  induction bs with
  | nil => rfl
  | cons b rest ih =>
    show (String.mk _).length = _
    simp only [bytesToHexLower, String.length] at ih ⊢
    simp [List.flatten] at ih ⊢
    omega

/-- An HMAC-SHA256 hex digest has 64 characters. -/
theorem hmacSha256Hex_length (k m : String) : (hmacSha256Hex k m).length = 64 := by
  unfold hmacSha256Hex
  rw [bytesToHexLower_length, hmacSha256Bytes, sha256Bytes_length]

/-- An HMAC-SHA256 hex digest is never empty. -/
theorem hmacSha256Hex_ne_empty (k m : String) : hmacSha256Hex k m ≠ "" := by
  intro h
  have := hmacSha256Hex_length k m
  rw [h] at this
  simp at this

/-- C2: for every non-empty secret, timestamp string and token string,
`_verify_signature` accepts exactly the lowercase-hex HMAC-SHA256 of
`ts ++ token` keyed by the secret, and rejects every other provided
signature string (in particular any single-character or single-bit
mutation of the correct one). -/
theorem claim_C2 (secret ts tok : String) (h1 : secret ≠ "") (h2 : ts ≠ "") (h3 : tok ≠ "") :
    (LambdaFunction._verify_signature secret
        (.jo [("timestamp", .js ts), ("token", .js tok),
              ("signature", .js (hmacSha256Hex secret (ts ++ tok)))]) = true)
    ∧ ∀ s : String, s ≠ hmacSha256Hex secret (ts ++ tok) →
        LambdaFunction._verify_signature secret
          (.jo [("timestamp", .js ts), ("token", .js tok), ("signature", .js s)]) = false := by
  constructor
  · unfold LambdaFunction._verify_signature
    simp [pyGetD, pyGet, pyStr, pyTruthy, h1, h2, h3, hmacSha256Hex_ne_empty]
  · intro s hs
    unfold LambdaFunction._verify_signature
    by_cases hse : s = ""
    · subst hse
      simp [pyGetD, pyGet, pyStr, pyTruthy, h1, h2, h3]
    · simp [pyGetD, pyGet, pyStr, pyTruthy, h1, h2, h3, hse]
      exact fun h => absurd h.symm hs

/-- C2, witness at `secret = "k"`, `ts = "1"`, `tok = "t"`: the correct
signature verifies, the signature `"x"` does not. -/
theorem claim_C2_witness :
    (LambdaFunction._verify_signature "k"
        (.jo [("timestamp", .js "1"), ("token", .js "t"),
              ("signature", .js (hmacSha256Hex "k" ("1" ++ "t")))]) = true)
    ∧ LambdaFunction._verify_signature "k"
        (.jo [("timestamp", .js "1"), ("token", .js "t"), ("signature", .js "x")]) = false := by
  refine ⟨(claim_C2 "k" "1" "t" (by decide) (by decide) (by decide)).1,
    (claim_C2 "k" "1" "t" (by decide) (by decide) (by decide)).2 "x" fun h => ?_⟩
  have hl := hmacSha256Hex_length "k" ("1" ++ "t")
  rw [← h] at hl
  exact absurd hl (by decide)

/-! ## Claim C4: the token caches return a live cached token without a
network call and cache fresh tokens with a 60-second safety margin -/

/-- C4: for both embedded token caches (`lambda_function.get_tuya_token`
and `qingping_bind_device.get_qingping_access_token`): a cached
non-empty token with `now < expires_at` is returned identically with
zero network calls; otherwise the exchange runs and the fresh token is
cached with `expires_at = now + ttl - 60`; consequently a second call
within `ttl - 60` seconds of a successful fetch returns the same token
with zero network calls. -/
theorem claim_C4 :
    (∀ (cache : LambdaFunction.TokenCache) (now : Int) (resp : LambdaFunction.TuyaTokenResp)
        (tk : String), cache.token = some tk → tk ≠ "" → now < cache.expires_at →
        LambdaFunction.get_tuya_token cache now resp = .ok (tk, cache, 0))
    ∧ (∀ (cache : LambdaFunction.TokenCache) (now : Int) (resp : LambdaFunction.TuyaTokenResp)
        (ttl : Int) (tk' : String),
        ¬(cache.token.getD "" ≠ "" ∧ now < cache.expires_at) →
        resp.success = true → resp.access_token = some tk' → resp.expire_time = some ttl →
        LambdaFunction.get_tuya_token cache now resp =
          .ok (tk', ⟨some tk', now + ttl - 60⟩, 1))
    ∧ (∀ (t0 t1 ttl : Int) (tk' : String) (resp2 : LambdaFunction.TuyaTokenResp),
        tk' ≠ "" → t1 < t0 + ttl - 60 →
        LambdaFunction.get_tuya_token ⟨some tk', t0 + ttl - 60⟩ t1 resp2 =
          .ok (tk', ⟨some tk', t0 + ttl - 60⟩, 0))
    ∧ (∀ (key sec : String) (cache : LambdaFunction.TokenCache) (now : Int)
        (resp : QingpingBind.OAuthResp) (tk : String),
        cache.token = some tk → tk ≠ "" → now < cache.expires_at →
        QingpingBind.get_qingping_access_token key sec cache now resp = .ok (tk, cache, 0))
    ∧ (∀ (key sec : String) (cache : LambdaFunction.TokenCache) (now : Int)
        (resp : QingpingBind.OAuthResp) (ttl : Int) (tk' : String),
        key ≠ "" → sec ≠ "" →
        ¬(cache.token.getD "" ≠ "" ∧ now < cache.expires_at) →
        resp.access_token = some tk' → tk' ≠ "" → resp.expires_in = some ttl → 0 < ttl →
        QingpingBind.get_qingping_access_token key sec cache now resp =
          .ok (tk', ⟨some tk', now + ttl - 60⟩, 1))
    ∧ (∀ (key sec : String) (t0 t1 ttl : Int) (tk' : String) (resp2 : QingpingBind.OAuthResp),
        tk' ≠ "" → t1 < t0 + ttl - 60 →
        QingpingBind.get_qingping_access_token key sec ⟨some tk', t0 + ttl - 60⟩ t1 resp2 =
          .ok (tk', ⟨some tk', t0 + ttl - 60⟩, 0)) := by
  refine ⟨?_, ?_, ?_, ?_, ?_, ?_⟩
  · intro cache now resp tk h1 h2 h3
    unfold LambdaFunction.get_tuya_token
    simp [h1, h2, h3]
  · intro cache now resp ttl tk' hmiss hs ha he
    unfold LambdaFunction.get_tuya_token
    rw [if_neg (by simpa using fun a => by_contra fun hb => hmiss ⟨a, lt_of_not_le hb⟩)]
    simp [hs, ha, he]
  · intro t0 t1 ttl tk' resp2 h1 h2
    unfold LambdaFunction.get_tuya_token
    simp [h1, h2]
  · intro key sec cache now resp tk h1 h2 h3
    unfold QingpingBind.get_qingping_access_token
    simp [h1, h2, h3]
  · intro key sec cache now resp ttl tk' hk hs hmiss ha hne he hpos
    unfold QingpingBind.get_qingping_access_token
    rw [if_neg (by simpa using fun a => by_contra fun hb => hmiss ⟨a, lt_of_not_le hb⟩)]
    simp [hk, hs, ha, hne, he]
    omega
  · intro key sec t0 t1 ttl tk' resp2 h1 h2
    unfold QingpingBind.get_qingping_access_token
    simp [h1, h2]

/-- C4, witness: a warm cache at `now = 50 < expires_at = 100` answers
from the cache; a cold cache fetches and stores
`expires_at = now + 7200 - 60`; a second call at 60 < 7190 reuses it;
the OAuth variant caches `now + 100 - 60`. -/
theorem claim_C4_witness :
    (LambdaFunction.get_tuya_token ⟨some "tk", 100⟩ 50 ⟨true, some "new", some 7200⟩ =
      .ok ("tk", ⟨some "tk", 100⟩, 0))
    ∧ (LambdaFunction.get_tuya_token ⟨none, 0⟩ 50 ⟨true, some "new", some 7200⟩ =
      .ok ("new", ⟨some "new", 50 + 7200 - 60⟩, 1))
    ∧ (LambdaFunction.get_tuya_token ⟨some "new", 50 + 7200 - 60⟩ 60 ⟨true, some "other", some 10⟩ =
      .ok ("new", ⟨some "new", 50 + 7200 - 60⟩, 0))
    ∧ (QingpingBind.get_qingping_access_token "k" "s" ⟨none, 0⟩ 50 ⟨some "q", some 100⟩ =
      .ok ("q", ⟨some "q", 50 + 100 - 60⟩, 0 + 1)) := by
  refine ⟨claim_C4.1 _ _ _ "tk" rfl (by decide) (by decide),
    claim_C4.2.1 _ _ _ 7200 "new" (by simp) rfl rfl rfl,
    claim_C4.2.2.1 50 60 7200 "new" _ (by decide) (by decide),
    ?_⟩
  have := claim_C4.2.2.2.2.1 "k" "s" ⟨none, 0⟩ 50 ⟨some "q", some 100⟩ 100 "q"
    (by decide) (by decide) (by simp) rfl (by decide) rfl (by decide)
  simpa using this

/-! ## Claim C5: rejection of missing or non-positive token lifetimes -/

/-- C5, counterexample: `fetch_tuya_plugs_list.get_tuya_token` does not
raise on a token response with a missing `expire_time` — it defaults
the ttl to 7200 and caches — and it caches a token with the declared
ttl `-5`, leaving `expires_at = 35 < now = 100`; both contradict the
claim that every token fetcher rejects a missing or non-positive ttl
with an `AuthError` and caches nothing. -/
theorem claim_C5_counterexample :
    (FetchTuyaPlugs.get_tuya_token ⟨none, 0⟩ 100 ⟨some "tk", none⟩ =
      .ok ("tk", ⟨some "tk", 7240⟩, 1))
    ∧ (FetchTuyaPlugs.get_tuya_token ⟨none, 0⟩ 100 ⟨some "tk", some (-5)⟩ =
      .ok ("tk", ⟨some "tk", 35⟩, 1)) := by
  exact ⟨rfl, rfl⟩

/-- C5 (amended): `qingping_bind_device.get_qingping_access_token`
raises on a missing or non-positive `expires_in` (defaulted to 0) and
caches nothing; but the Tuya token fetcher
(`fetch_tuya_plugs_list.get_tuya_token`) and
`qingping_list_devices.get_qingping_access_token` default a missing ttl
to 7200 seconds and cache a token with any declared ttl, non-positive
included, without raising. -/
theorem claim_C5_amended :
    (∀ (key sec : String) (cache : LambdaFunction.TokenCache) (now : Int)
        (resp : QingpingBind.OAuthResp), key ≠ "" → sec ≠ "" →
        ¬(cache.token.getD "" ≠ "" ∧ now < cache.expires_at) →
        resp.expires_in.getD 0 ≤ 0 →
        QingpingBind.get_qingping_access_token key sec cache now resp =
          .error "Unexpected token response")
    ∧ (∀ (cache : LambdaFunction.TokenCache) (now : Int) (result : FetchTuyaPlugs.TuyaResult)
        (tk : String), ¬(cache.token.getD "" ≠ "" ∧ now < cache.expires_at) →
        result.access_token = some tk → tk ≠ "" → result.expire_time = none →
        FetchTuyaPlugs.get_tuya_token cache now result =
          .ok (tk, ⟨some tk, now + 7200 - 60⟩, 1))
    ∧ (∀ (cache : LambdaFunction.TokenCache) (now : Int) (resp : QingpingBind.OAuthResp)
        (tk : String), ¬(cache.token.getD "" ≠ "" ∧ now < cache.expires_at) →
        resp.access_token = some tk → tk ≠ "" → resp.expires_in = none →
        QingpingListDevices.get_qingping_access_token cache now resp =
          .ok (tk, ⟨some tk, now + 7200 - 60⟩, 1))
    ∧ (∀ (cache : LambdaFunction.TokenCache) (now : Int) (result : FetchTuyaPlugs.TuyaResult)
        (tk : String) (e : Int), ¬(cache.token.getD "" ≠ "" ∧ now < cache.expires_at) →
        result.access_token = some tk → tk ≠ "" → result.expire_time = some e →
        FetchTuyaPlugs.get_tuya_token cache now result =
          .ok (tk, ⟨some tk, now + e - 60⟩, 1)) := by
  refine ⟨?_, ?_, ?_, ?_⟩
  · intro key sec cache now resp hk hs hmiss hexp
    unfold QingpingBind.get_qingping_access_token
    rw [if_neg (by simpa using fun a => by_contra fun hb => hmiss ⟨a, lt_of_not_le hb⟩)]
    simp [hk, hs]
    intro h
    omega
  · intro cache now result tk hmiss ha hne he
    unfold FetchTuyaPlugs.get_tuya_token
    rw [if_neg (by simpa using fun a => by_contra fun hb => hmiss ⟨a, lt_of_not_le hb⟩)]
    simp [ha, hne, he]
  · intro cache now resp tk hmiss ha hne he
    unfold QingpingListDevices.get_qingping_access_token
    rw [if_neg (by simpa using fun a => by_contra fun hb => hmiss ⟨a, lt_of_not_le hb⟩)]
    simp [ha, hne, he]
  · intro cache now result tk e hmiss ha hne he
    unfold FetchTuyaPlugs.get_tuya_token
    rw [if_neg (by simpa using fun a => by_contra fun hb => hmiss ⟨a, lt_of_not_le hb⟩)]
    simp [ha, hne, he]

/-- C5, witness: the four amended behaviours at concrete inputs. -/
theorem claim_C5_witness :
    (QingpingBind.get_qingping_access_token "k" "s" ⟨none, 0⟩ 100 ⟨some "tk", some 0⟩ =
      .error "Unexpected token response")
    ∧ (FetchTuyaPlugs.get_tuya_token ⟨none, 0⟩ 100 ⟨some "tk", none⟩ =
      .ok ("tk", ⟨some "tk", 100 + 7200 - 60⟩, 1))
    ∧ (QingpingListDevices.get_qingping_access_token ⟨none, 0⟩ 100 ⟨some "tk", none⟩ =
      .ok ("tk", ⟨some "tk", 100 + 7200 - 60⟩, 1))
    ∧ (FetchTuyaPlugs.get_tuya_token ⟨none, 0⟩ 100 ⟨some "tk", some (-5)⟩ =
      .ok ("tk", ⟨some "tk", 100 + (-5) - 60⟩, 1)) := by
  exact ⟨claim_C5_amended.1 "k" "s" _ 100 ⟨some "tk", some 0⟩ (by decide) (by decide) (by simp)
      (by decide),
    claim_C5_amended.2.1 _ 100 ⟨some "tk", none⟩ "tk" (by simp) rfl (by decide) rfl,
    claim_C5_amended.2.2.1 _ 100 ⟨some "tk", none⟩ "tk" (by simp) rfl (by decide) rfl,
    claim_C5_amended.2.2.2 _ 100 ⟨some "tk", some (-5)⟩ "tk" (-5) (by simp) rfl (by decide) rfl⟩

/-! ## Claim C6: device-registry reconciliation -/

/-- C6: the reconciliation in `qingping_list_devices.lambda_handler`
puts exactly the keys in `remote - local` (each with its remote item),
deletes exactly the keys in `local - remote`, and touches no key present
in both; with empty remote it deletes every local key, with empty local
it inserts every remote key, and identical key sets produce no write. -/
theorem claim_C6 {α : Type} (remote db : List (String × α)) :
    (QingpingListDevices.syncWrites remote db).1 =
        (remote.map Prod.fst).toFinset \ (db.map Prod.fst).toFinset
    ∧ (QingpingListDevices.syncWrites remote db).2 =
        (db.map Prod.fst).toFinset \ (remote.map Prod.fst).toFinset
    ∧ (∀ k ∈ (remote.map Prod.fst).toFinset ∩ (db.map Prod.fst).toFinset,
        k ∉ (QingpingListDevices.syncWrites remote db).1
        ∧ k ∉ (QingpingListDevices.syncWrites remote db).2)
    ∧ QingpingListDevices.syncWrites remote ([] : List (String × α)) =
        ((remote.map Prod.fst).toFinset, ∅)
    ∧ QingpingListDevices.syncWrites ([] : List (String × α)) db =
        (∅, (db.map Prod.fst).toFinset)
    ∧ ((remote.map Prod.fst).toFinset = (db.map Prod.fst).toFinset →
        QingpingListDevices.syncWrites remote db = (∅, ∅)) := by
  refine ⟨rfl, rfl, ?_, ?_, ?_, ?_⟩
  · intro k hk
    simp only [Finset.mem_inter] at hk
    constructor
    · simp [QingpingListDevices.syncWrites, hk.2]
    · simp [QingpingListDevices.syncWrites, hk.1]
  · simp [QingpingListDevices.syncWrites]
  · simp [QingpingListDevices.syncWrites]
  · intro h
    simp [QingpingListDevices.syncWrites, h]

/-- C6, witness: `reconcile({A,B,C}, {B,C,D})` inserts `{A}`, deletes
`{D}` and leaves `B` untouched. -/
theorem claim_C6_witness :
    (QingpingListDevices.syncWrites [("A", 0), ("B", 0), ("C", 0)]
        [("B", 1), ("C", 1), ("D", 1)]).1 = {"A"}
    ∧ (QingpingListDevices.syncWrites [("A", 0), ("B", 0), ("C", 0)]
        [("B", 1), ("C", 1), ("D", 1)]).2 = {"D"}
    ∧ "B" ∉ (QingpingListDevices.syncWrites [("A", 0), ("B", 0), ("C", 0)]
        [("B", 1), ("C", 1), ("D", 1)]).1 := by
  obtain ⟨h1, h2, h3, -⟩ := claim_C6 [("A", 0), ("B", 0), ("C", 0)] [("B", 1), ("C", 1), ("D", 1)]
  exact ⟨h1.trans (by decide), h2.trans (by decide), (h3 "B" (by decide)).1⟩

/-! ## Claim C8: cursor pagination terminates on an empty cursor -/

/-- The `or ""` defaulting in the log loop does not change truthiness. -/
theorem pyTruthy_or_default (v : JVal) :
    pyTruthy (if pyTruthy v then v else .js "") = pyTruthy v := by
  by_cases h : pyTruthy v
  · rw [if_pos h]
  · rw [if_neg h]
    simp only [Bool.not_eq_true] at h
    rw [h]
    rfl

/-- C8: `tuya_fetch_switch_logs` continues past a page exactly when that
page's `has_more` is truthy AND its cursor is non-empty; a page with
`has_more = true` but an empty or missing `last_row_key` is terminal and
the accumulated logs are returned; and whenever some supplied page is
terminal the drain completes (returns `some`) instead of requesting
past it forever. -/
theorem claim_C8 {α : Type} :
    (∀ (p : DownloadCsv.LogPage α) (rest : List (DownloadCsv.LogPage α)) (acc : List α),
      DownloadCsv.fetchGo (p :: rest) acc =
        if pyTruthy p.has_more && pyTruthy p.last_row_key then
          DownloadCsv.fetchGo rest (acc ++ p.logs)
        else some (acc ++ p.logs))
    ∧ (∀ (p : DownloadCsv.LogPage α) (rest : List (DownloadCsv.LogPage α)),
      p.has_more = .jb true → (p.last_row_key = .js "" ∨ p.last_row_key = .null) →
      DownloadCsv.tuya_fetch_switch_logs (p :: rest) = some p.logs)
    ∧ (∀ pages : List (DownloadCsv.LogPage α),
      (∃ p ∈ pages, ¬(pyTruthy p.has_more && pyTruthy p.last_row_key) = true) →
      (DownloadCsv.tuya_fetch_switch_logs pages).isSome = true) := by
  have step : ∀ (p : DownloadCsv.LogPage α) (rest : List (DownloadCsv.LogPage α)) (acc : List α),
      DownloadCsv.fetchGo (p :: rest) acc =
        if pyTruthy p.has_more && pyTruthy p.last_row_key then
          DownloadCsv.fetchGo rest (acc ++ p.logs)
        else some (acc ++ p.logs) := by
    intro p rest acc
    show (let acc2 := acc ++ p.logs; _) = _
    simp only [DownloadCsv.fetchGo, pyTruthy_or_default]
    by_cases h1 : pyTruthy p.has_more <;> by_cases h2 : pyTruthy p.last_row_key <;>
      simp [h1, h2]
  refine ⟨step, ?_, ?_⟩
  · intro p rest h1 h2
    unfold DownloadCsv.tuya_fetch_switch_logs
    rw [step]
    rcases h2 with h2 | h2 <;> simp [h1, h2, pyTruthy]
  · intro pages hex
    suffices h : ∀ acc, (DownloadCsv.fetchGo pages acc).isSome = true from h []
    induction pages with
    | nil => simp at hex
    | cons p rest ih =>
      intro acc
      rw [step]
      by_cases hc : pyTruthy p.has_more && pyTruthy p.last_row_key
      · rw [if_pos hc]
        rcases hex with ⟨q, hq, hqs⟩
        rcases List.mem_cons.mp hq with rfl | hq'
        · exact absurd hc hqs
        · exact ih ⟨q, hq', hqs⟩ _
      · rw [if_neg hc]
        rfl

/-- C8, witness: two pages then a terminal empty cursor accumulate
`[1, 2, 3]`; a single `has_more = true`/empty-cursor page returns its
logs; a `has_more = false` second page makes the drain complete. -/
theorem claim_C8_witness :
    (DownloadCsv.fetchGo [⟨[1, 2], .jb true, .js "cur"⟩, ⟨[3], .jb true, .js ""⟩] ([] : List Nat) =
      some [1, 2, 3])
    ∧ (DownloadCsv.tuya_fetch_switch_logs [(⟨[7], .jb true, .js ""⟩ : DownloadCsv.LogPage Nat)] =
      some [7])
    ∧ (DownloadCsv.tuya_fetch_switch_logs
        [(⟨[1], .jb true, .js "k"⟩ : DownloadCsv.LogPage Nat), ⟨[2], .jb false, .js "k"⟩]).isSome
        = true := by
  refine ⟨?_, claim_C8.2.1 _ [] rfl (Or.inl rfl),
    claim_C8.2.2 _ ⟨⟨[2], .jb false, .js "k"⟩, by simp, by simp [pyTruthy]⟩⟩
  rw [claim_C8.1]
  simp [pyTruthy]
  rw [claim_C8.1]
  simp [pyTruthy]

/-! ## Claim C9: offset/page-size pagination -/

/-- C9: `list_all_devices_in_space` (page size 20, pages holding at most
20 items as the vendor answers them) continues past a page exactly when
it holds exactly 20 items: a full page of 20 leads to a further request,
a shorter page's items are appended and the drain stops, an empty page
stops without appending; feeding pages of 20, 20, 20 and 5 devices
yields all 65 devices in order and no request past the short page. -/
theorem claim_C9 {α : Type} (getId : α → Option String) :
    (∀ (items : List α) (rest : List (List α)) (lastid : Option String) (acc : List α),
      items ≠ [] → items.length ≤ 20 →
      (items.length = 20 →
        FetchTuyaPlugs.listGo getId (items :: rest) lastid acc =
          FetchTuyaPlugs.listGo getId rest
            (match items.getLast? with | some d => getId d | none => none) (acc ++ items))
      ∧ (items.length < 20 →
        FetchTuyaPlugs.listGo getId (items :: rest) lastid acc = some (acc ++ items)))
    ∧ (∀ (rest : List (List α)) (lastid : Option String) (acc : List α),
      FetchTuyaPlugs.listGo getId ([] :: rest) lastid acc = some acc)
    ∧ (∀ rest : List (List Nat),
      FetchTuyaPlugs.list_all_devices_in_space (fun _ => none)
          ([List.range' 0 20, List.range' 20 20, List.range' 40 20, List.range' 60 5] ++ rest) =
        some (List.range 65)) := by
  refine ⟨?_, ?_, ?_⟩
  · intro items rest lastid acc hne hle
    constructor
    · intro h20
      rw [FetchTuyaPlugs.listGo]
      rw [if_neg (by simpa using hne)]
      dsimp only
      rw [if_neg (by omega)]
      rfl
    · intro hlt
      rw [FetchTuyaPlugs.listGo]
      rw [if_neg (by simpa using hne)]
      dsimp only
      rw [if_pos hlt]
  · intro rest lastid acc
    rfl
  · intro rest
    rfl

/-- C9, witness: the 20/20/20/5 run at `rest = []`; a short first page
stops immediately with its items; an empty page stops with the
accumulator. -/
theorem claim_C9_witness :
    (FetchTuyaPlugs.list_all_devices_in_space (fun _ => none)
        [List.range' 0 20, List.range' 20 20, List.range' 40 20, List.range' 60 5] =
      some (List.range 65))
    ∧ (FetchTuyaPlugs.listGo (fun _ => (none : Option String)) [[1, 2]] none ([] : List Nat) =
      some [1, 2])
    ∧ (FetchTuyaPlugs.listGo (fun _ => (none : Option String)) [[]] none ([3] : List Nat) =
      some [3]) := by
  refine ⟨(claim_C9 (α := Nat) (fun _ => none)).2.2 [], ?_,
    (claim_C9 (α := Nat) (fun _ => none)).2.1 [] none [3]⟩
  have h := ((claim_C9 (α := Nat) (fun _ => none)).1 [1, 2] [] none ([] : List Nat) (by decide)
    (by decide)).2 (by decide)
  simpa using h

/-! ## Claim C7: upsert semantics of the sensor-plug mapping -/


namespace SensorPlugBind

/-- Running any sequence of upserts over a table that already holds the
key with `created_at = some c` preserves that `created_at` and leaves
`updated_at` at the last call's time. -/
theorem runUpserts_from_existing (mac : String) (c : Int) :
    ∀ (calls : List (Int × String × Bool)) (tbl : MTable) (it0 : MappingItem),
      mlookup tbl mac = some it0 → it0.created_at = some c →
      ∃ it : MappingItem,
        mlookup (runUpserts mac calls tbl) mac = some it
        ∧ it.created_at = some c
        ∧ it.updated_at = (calls.map (·.1)).getLastD it0.updated_at := by
  intro calls
  induction calls with
  | nil => exact fun tbl it0 h1 h2 => ⟨it0, h1, h2, rfl⟩
  | cons call rest ih =>
    intro tbl it0 h1 h2
    obtain ⟨t, dv, en⟩ := call
    have hstep : mlookup (upsert_mapping tbl mac dv en none t).2 mac =
        some (upsert_mapping tbl mac dv en none t).1 := by
      simp [upsert_mapping, mlookup]
    have hcreated : (upsert_mapping tbl mac dv en none t).1.created_at = some c := by
      simp [upsert_mapping, h1, h2]
    have hupd : (upsert_mapping tbl mac dv en none t).1.updated_at = t := by
      simp [upsert_mapping]
    obtain ⟨it, g1, g2, g3⟩ := ih _ _ hstep hcreated
    refine ⟨it, g1, g2, ?_⟩
    rw [g3, hupd]
    cases rest with
    | nil => simp [List.getLastD]
    | cons r rs => simp [List.getLastD, List.getLast?_cons_cons]

end SensorPlugBind

/-- The head of a `≤`-chain bounds its last element. -/
theorem chain_le_head_getLastD (a : Int) (l : List Int) (h : List.Chain' (· ≤ ·) (a :: l)) :
    a ≤ l.getLastD a := by
  cases l with
  | nil => simp [List.getLastD]
  | cons x xs =>
    have hp : List.Pairwise (· ≤ ·) (a :: x :: xs) := (List.chain'_iff_pairwise).mp h
    have hh := (List.pairwise_cons.mp hp).1
    have hmem : (x :: xs).getLast (by simp) ∈ x :: xs := List.getLast_mem (by simp)
    have h1 : a ≤ (x :: xs).getLast (by simp) := hh _ hmem
    have h2 : (x :: xs).getLastD a = (x :: xs).getLast (by simp) := by
      rw [List.getLastD_eq_getLast?, List.getLast?_eq_getLast _ (by simp)]
      rfl
    rw [h2]
    exact h1

/-- C7: each `upsert_mapping` call stores `updated_at` equal to the
call's time, preserves a pre-existing record's `created_at` (falling
back to the call's time when no record — or no attribute — exists), and
the written record is what a subsequent lookup finds; and for every
non-empty sequence of upserts on a fresh key with nondecreasing call
times, the stored record carries `created_at` equal to the first call's
time and `updated_at` equal to the last call's time, with
`created_at ≤ updated_at` — in particular two upserts preserve the
original `created_at` while `updated_at` advances. -/
theorem claim_C7 :
    (∀ (tbl : SensorPlugBind.MTable) (mac dev : String) (en : Bool) (user : Option String)
        (now : Int),
      ((SensorPlugBind.upsert_mapping tbl mac dev en user now).1.updated_at = now)
      ∧ (SensorPlugBind.mlookup tbl mac = none →
          (SensorPlugBind.upsert_mapping tbl mac dev en user now).1.created_at = some now)
      ∧ (∀ ex c, SensorPlugBind.mlookup tbl mac = some ex → ex.created_at = some c →
          (SensorPlugBind.upsert_mapping tbl mac dev en user now).1.created_at = some c)
      ∧ (SensorPlugBind.mlookup (SensorPlugBind.upsert_mapping tbl mac dev en user now).2 mac =
          some (SensorPlugBind.upsert_mapping tbl mac dev en user now).1))
    ∧ (∀ (mac : String) (calls : List (Int × String × Bool)) (t0 : Int) (d0 : String) (e0 : Bool)
        (tbl0 : SensorPlugBind.MTable),
        SensorPlugBind.mlookup tbl0 mac = none →
        List.Chain' (· ≤ ·) (((t0, d0, e0) :: calls).map (·.1)) →
        ∃ it : SensorPlugBind.MappingItem,
          SensorPlugBind.mlookup (SensorPlugBind.runUpserts mac ((t0, d0, e0) :: calls) tbl0) mac =
            some it
          ∧ it.created_at = some t0
          ∧ it.updated_at = (calls.map (·.1)).getLastD t0
          ∧ t0 ≤ it.updated_at) := by
  constructor
  · intro tbl mac dev en user now
    refine ⟨by simp [SensorPlugBind.upsert_mapping], ?_, ?_, ?_⟩
    · intro h
      simp [SensorPlugBind.upsert_mapping, h]
    · intro ex c h1 h2
      simp [SensorPlugBind.upsert_mapping, h1, h2]
    · simp [SensorPlugBind.upsert_mapping, SensorPlugBind.mlookup]
  · intro mac calls t0 d0 e0 tbl0 h0 hchain
    have hstep : SensorPlugBind.mlookup (SensorPlugBind.upsert_mapping tbl0 mac d0 e0 none t0).2
        mac = some (SensorPlugBind.upsert_mapping tbl0 mac d0 e0 none t0).1 := by
      simp [SensorPlugBind.upsert_mapping, SensorPlugBind.mlookup]
    have hcreated : (SensorPlugBind.upsert_mapping tbl0 mac d0 e0 none t0).1.created_at =
        some t0 := by
      simp [SensorPlugBind.upsert_mapping, h0]
    have hupd : (SensorPlugBind.upsert_mapping tbl0 mac d0 e0 none t0).1.updated_at = t0 := by
      simp [SensorPlugBind.upsert_mapping]
    obtain ⟨it, g1, g2, g3⟩ := SensorPlugBind.runUpserts_from_existing mac t0 calls _ _ hstep hcreated
    rw [hupd] at g3
    refine ⟨it, g1, g2, g3, ?_⟩
    rw [g3]
    exact chain_le_head_getLastD t0 _ (by simpa using hchain)

/-- C7, witness: a fresh upsert at time 5 then a second at time 9 keeps
`created_at = 5` and moves `updated_at` to 9. -/
theorem claim_C7_witness :
    ((SensorPlugBind.upsert_mapping [] "M" "d" true none 5).1.updated_at = 5)
    ∧ ((SensorPlugBind.upsert_mapping [] "M" "d" true none 5).1.created_at = some 5)
    ∧ ((SensorPlugBind.mlookup
          (SensorPlugBind.runUpserts "M" [(5, "d", true), (9, "e", false)] []) "M").map
        (fun it => (it.created_at, it.updated_at)) = some (some 5, 9)) := by
  refine ⟨(claim_C7.1 [] "M" "d" true none 5).1, (claim_C7.1 [] "M" "d" true none 5).2.1 rfl, ?_⟩
  obtain ⟨it, h1, h2, h3, h4⟩ :=
    claim_C7.2 "M" [(9, "e", false)] 5 "d" true [] rfl (by simp)
  rw [h1]
  simp [h2, h3, List.getLastD]

/-! ## Claims C3 and C10: the webhook handler -/

/-- `exOk` characterized. -/
theorem exOk_iff {α : Type} {e : Except Unit α} : exOk e = true ↔ ∃ v, e = .ok v := by
  cases e <;> simp [exOk]

namespace LambdaFunction

/-- A well-formed reading is saved without raising. -/
theorem save_ok (now : Int) (mac : JVal) (r : JVal) (h : wellFormedReading r = true) :
    ∃ s, save_sensor_reading now mac r = .ok s := by
  match r with
  | .jo o =>
    simp only [wellFormedReading, Bool.and_eq_true] at h
    obtain ⟨⟨⟨⟨⟨⟨h1, h2⟩, h3⟩, h4⟩, h5⟩, h6⟩, h7⟩ := h
    obtain ⟨v1, hv1⟩ := exOk_iff.mp h1
    obtain ⟨v2, hv2⟩ := exOk_iff.mp h2
    obtain ⟨v3, hv3⟩ := exOk_iff.mp h3
    obtain ⟨v4, hv4⟩ := exOk_iff.mp h4
    obtain ⟨v5, hv5⟩ := exOk_iff.mp h5
    obtain ⟨v6, hv6⟩ := exOk_iff.mp h6
    obtain ⟨v7, hv7⟩ := exOk_iff.mp h7
    refine ⟨⟨mac, v1, v2, v3, v4, v5, v6, v7, now⟩, ?_⟩
    simp only [save_sensor_reading, hv1, hv2, hv3, hv4, hv5, hv6, hv7]
    rfl
  | .null | .jb _ | .jn _ | .js _ | .ja _ => simp [wellFormedReading] at h

/-- The save loop succeeds over well-formed readings, saving one item
per reading. -/
theorem saveAll_ok (now : Int) (mac : JVal) :
    ∀ rs : List JVal, (∀ r ∈ rs, wellFormedReading r = true) →
      ∃ vs, saveAll now mac rs = .ok vs ∧ vs.length = rs.length := by
  intro rs
  induction rs with
  | nil => exact fun _ => ⟨[], rfl, rfl⟩
  | cons r rest ih =>
    intro h
    obtain ⟨s, hs⟩ := save_ok now mac r (h r (List.mem_cons_self r rest))
    obtain ⟨vs, hvs, hlen⟩ := ih fun x hx => h x (List.mem_cons_of_mem r hx)
    refine ⟨s :: vs, ?_, by simp [hlen]⟩
    simp only [saveAll, hs, hvs]
    rfl

/-- The verified, well-formed-payload path of the webhook handler:
every reading is saved, the answer is 200, and the plug-control attempt
is determined by `get_plug_device_id_for_sensor`. -/
theorem handle_success (secret : String) (mapping : JVal → Option (List (String × JVal)))
    (now : Int) (p pl io : List (String × JVal)) (mac : String) (readings : List JVal)
    (saves : List SavedReading) (pm25v : JVal) (pm25 : Int) (lo : List (String × JVal))
    (h1 : pyGetD p "payload" (.jo []) = .jo pl)
    (h2 : pyGetD pl "info" (.jo []) = .jo io)
    (h3 : pyGet io "mac" = some (.js mac)) (h4 : mac ≠ "")
    (h5 : pyGetD pl "data" (.ja []) = .ja readings) (h6 : readings ≠ [])
    (h8 : _verify_signature secret (pyGetD p "signature" (.jo [])) = true)
    (hsaves : saveAll now (.js mac) readings = .ok saves)
    (hlast : readings.getLast? = some (.jo lo))
    (hpm : readingValue lo "pm25" = .ok pm25v)
    (hpmf : pyFloatOfJ pm25v = .ok pm25) :
    handle_qingping_webhook secret mapping now (.ok (.jo p)) =
      .ok ⟨200, saves,
        if truthyOpt (get_plug_device_id_for_sensor mapping (.js mac)) then
          some ((get_plug_device_id_for_sensor mapping (.js mac)).getD .null,
            decide (9 ≤ pm25))
        else none⟩ := by
  simp only [handle_qingping_webhook, h1, h2, h3, h5, h8, truthyOpt, pyTruthy, h4, h6,
    Bool.not_true, Bool.false_or, hsaves, hlast, hpm, hpmf]
  rw [if_neg (by simp)]
  rw [if_neg (by simp [h4, h6])]
  simp only [bind, Except.bind, hpmf]
  split <;> rfl


/-- A successful `Except` bind factors through a successful first step. -/
theorem except_bind_ok {α β : Type} {a : Except Unit α} {f : α → Except Unit β} {b : β}
    (h : (a >>= f) = .ok b) : ∃ v, a = .ok v ∧ f v = .ok b := by
  cases a with
  | ok v => exact ⟨v, rfl, h⟩
  | error e => simp [bind, Except.bind] at h

/-- A value accepted by `Decimal(str(...))` is accepted by `float()`
with the same (integral) result. -/
theorem pyFloat_of_decimal {v : JVal} {n : Int} (h : pyDecimalOfStr v = .ok n) :
    pyFloatOfJ v = .ok n := by
  match v with
  | .jn m => simpa [pyDecimalOfStr, pyFloatOfJ, pyIntOfJ] using h
  | .js s =>
    simp only [pyDecimalOfStr] at h
    simp only [pyFloatOfJ, pyIntOfJ]
    split at h
    · exact h
    · exact absurd h (by simp)
  | .null | .jb _ | .ja _ | .jo _ => simp [pyDecimalOfStr] at h

/-- A non-empty list of well-formed readings has a dict last element
whose `pm25.value` converts. -/
theorem last_reading_fields (readings : List JVal) (h6 : readings ≠ [])
    (h7 : ∀ r ∈ readings, wellFormedReading r = true) :
    ∃ (lo : List (String × JVal)) (pm25v : JVal) (pm25 : Int),
      readings.getLast? = some (.jo lo)
      ∧ readingValue lo "pm25" = .ok pm25v
      ∧ pyFloatOfJ pm25v = .ok pm25 := by
  have hlast : readings.getLast? = some (readings.getLast h6) :=
    List.getLast?_eq_getLast readings h6
  have hmem : readings.getLast h6 ∈ readings := List.getLast_mem h6
  have hwf := h7 _ hmem
  match hm : readings.getLast h6 with
  | .jo lo =>
    rw [hm] at hlast hwf
    simp only [wellFormedReading, Bool.and_eq_true] at hwf
    obtain ⟨n, hb⟩ := exOk_iff.mp hwf.1.1.1.1.1.2
    obtain ⟨v, hv, hd⟩ := except_bind_ok hb
    exact ⟨lo, v, n, hlast, hv, pyFloat_of_decimal hd⟩
  | .null | .jb _ | .jn _ | .js _ | .ja _ =>
    rw [hm] at hwf
    simp [wellFormedReading] at hwf



/-- The silent-failure cases of `_verify_signature`: an unconfigured
secret, a non-dict signature block, a missing or empty (after `str()`)
timestamp, a missing/falsy token or signature, and a truthy token or
signature that is not a string (Python raises `TypeError` inside the
`try` there) all yield `false`, never an exception. -/
theorem verify_false_cases (secret : String) :
    (∀ block : JVal, _verify_signature "" block = false)
    ∧ (∀ v : JVal, (∀ o, v ≠ .jo o) → _verify_signature secret v = false)
    ∧ (∀ b, pyStr (pyGetD b "timestamp" (.js "")) = "" → _verify_signature secret (.jo b) = false)
    ∧ (∀ b, pyTruthy (pyGetD b "token" (.js "")) = false →
        _verify_signature secret (.jo b) = false)
    ∧ (∀ b, pyTruthy (pyGetD b "signature" (.js "")) = false →
        _verify_signature secret (.jo b) = false)
    ∧ (∀ b, (∀ s, pyGetD b "token" (.js "") ≠ .js s) →
        _verify_signature secret (.jo b) = false)
    ∧ (∀ b, (∀ s, pyGetD b "signature" (.js "") ≠ .js s) →
        _verify_signature secret (.jo b) = false) := by
  refine ⟨?_, ?_, ?_, ?_, ?_, ?_, ?_⟩
  · intro block
    match block with
    | .jo b => simp [_verify_signature]
    | .null | .jb _ | .jn _ | .js _ | .ja _ => rfl
  · intro v hv
    match v with
    | .jo o => exact absurd rfl (hv o)
    | .null | .jb _ | .jn _ | .js _ | .ja _ => rfl
  · intro b hts
    simp [_verify_signature, hts]
  · intro b htok
    simp [_verify_signature, htok]
  · intro b hsig
    simp [_verify_signature, hsig]
  · intro b htok
    match htk : pyGetD b "token" (.js "") with
    | .js s => exact absurd htk (htok s)
    | .null | .jb _ | .jn _ | .ja _ | .jo _ => simp [_verify_signature, htk, pyTruthy]
  · intro b hsig
    match hsg : pyGetD b "signature" (.js "") with
    | .js s => exact absurd hsg (hsig s)
    | .null | .jb _ | .jn _ | .ja _ | .jo _ =>
      match htk : pyGetD b "token" (.js "") with
      | .null | .jb _ | .jn _ | .js _ | .ja _ | .jo _ =>
        simp [_verify_signature, htk, hsg, pyTruthy]


/-- C3, counterexample: two clauses of the claim fail.  A *null*
timestamp is not rejected: Python coerces it with `str()` to `"None"`
and verification proceeds, so a signature computed over `"None" + token`
verifies even though the timestamp field is malformed.  And the dev
Flask handler `receive_data` answers 500, not 400, on a body that is
not valid JSON (its whole body is one `try` whose `except` answers
500). -/
theorem claim_C3_counterexample :
    (_verify_signature "k"
        (.jo [("timestamp", .null), ("token", .js "t"),
              ("signature", .js (hmacSha256Hex "k" "Nonet"))]) = true)
    ∧ WebhookServer.receive_data "k" (.error ()) = (500, "error") := by
  constructor
  · have hne := hmacSha256Hex_ne_empty "k" "Nonet"
    simp [_verify_signature, pyGetD, pyGet, pyStr, pyReprF, pyTruthy, hne]
  · rfl


/-- C3 (amended): webhook signature verification never raises — it
returns false (and `handle_qingping_webhook` answers 401) when the
secret is unconfigured, when the signature block is not a dict, when
the timestamp is missing or stringwise empty, when the token or
signature field is missing or falsy, or when a truthy token or
signature is not a string; a null (or otherwise non-string scalar)
timestamp, however, is coerced with `str()` and verified normally.  The
comparison is `hmac.compare_digest` (string equality over the ASCII
digest).  `handle_qingping_webhook` answers 200 on a verified
well-formed payload, 401 on signature failure, and 400 on a body that
is not valid JSON; the dev Flask handler `receive_data` answers 500,
not 400, there. -/
theorem claim_C3_amended :
    (∀ (secret : String) (mapping : JVal → Option (List (String × JVal))) (now : Int),
      handle_qingping_webhook secret mapping now (.error ()) = .ok ⟨400, [], none⟩)
    ∧ (∀ block : JVal, _verify_signature "" block = false)
    ∧ (∀ (secret : String) (v : JVal), (∀ o, v ≠ .jo o) → _verify_signature secret v = false)
    ∧ (∀ (secret : String) (b : List (String × JVal)),
        pyStr (pyGetD b "timestamp" (.js "")) = "" → _verify_signature secret (.jo b) = false)
    ∧ (∀ (secret : String) (b : List (String × JVal)),
        pyTruthy (pyGetD b "token" (.js "")) = false → _verify_signature secret (.jo b) = false)
    ∧ (∀ (secret : String) (b : List (String × JVal)),
        pyTruthy (pyGetD b "signature" (.js "")) = false →
        _verify_signature secret (.jo b) = false)
    ∧ (∀ (secret : String) (b : List (String × JVal)),
        (∀ s, pyGetD b "token" (.js "") ≠ .js s) → _verify_signature secret (.jo b) = false)
    ∧ (∀ (secret : String) (b : List (String × JVal)),
        (∀ s, pyGetD b "signature" (.js "") ≠ .js s) → _verify_signature secret (.jo b) = false)
    ∧ (∀ (secret : String) (mapping : JVal → Option (List (String × JVal))) (now : Int)
        (p : List (String × JVal)),
        _verify_signature secret (pyGetD p "signature" (.jo [])) = false →
        handle_qingping_webhook secret mapping now (.ok (.jo p)) = .ok ⟨401, [], none⟩)
    ∧ (∀ (secret : String) (mapping : JVal → Option (List (String × JVal))) (now : Int)
        (p pl io : List (String × JVal)) (mac : String) (readings : List JVal),
        pyGetD p "payload" (.jo []) = .jo pl →
        pyGetD pl "info" (.jo []) = .jo io →
        pyGet io "mac" = some (.js mac) → mac ≠ "" →
        pyGetD pl "data" (.ja []) = .ja readings → readings ≠ [] →
        (∀ r ∈ readings, wellFormedReading r = true) →
        _verify_signature secret (pyGetD p "signature" (.jo [])) = true →
        ∃ (saves : List SavedReading) (ctl : Option (JVal × Bool)),
          handle_qingping_webhook secret mapping now (.ok (.jo p)) = .ok ⟨200, saves, ctl⟩
          ∧ saves.length = readings.length)
    ∧ (∀ secret : String, WebhookServer.receive_data secret (.error ()) = (500, "error")) := by
  refine ⟨fun _ _ _ => rfl, fun block => (verify_false_cases "").1 block,
    fun secret v hv => (verify_false_cases secret).2.1 v hv,
    fun secret b h => (verify_false_cases secret).2.2.1 b h,
    fun secret b h => (verify_false_cases secret).2.2.2.1 b h,
    fun secret b h => (verify_false_cases secret).2.2.2.2.1 b h,
    fun secret b h => (verify_false_cases secret).2.2.2.2.2.1 b h,
    fun secret b h => (verify_false_cases secret).2.2.2.2.2.2 b h,
    ?_, ?_, fun _ => rfl⟩
  · intro secret mapping now p hfalse
    simp [handle_qingping_webhook, hfalse]
  · intro secret mapping now p pl io mac readings h1 h2 h3 h4 h5 h6 h7 h8
    obtain ⟨saves, hsaves, hlen⟩ := saveAll_ok now (.js mac) readings h7
    obtain ⟨lo, pm25v, pm25, hlast, hpm, hpmf⟩ := last_reading_fields readings h6 h7
    exact ⟨saves, _, handle_success secret mapping now p pl io mac readings saves pm25v pm25 lo
      h1 h2 h3 h4 h5 h6 h8 hsaves hlast hpm hpmf, hlen⟩

/-- A dict with a bound key is non-empty. -/
theorem pyGet_ne_nil {l : List (String × JVal)} {k : String} {v : JVal}
    (h : pyGet l k = some v) : l.isEmpty = false := by
  cases l with
  | nil => simp [pyGet] at h
  | cons kv rest => rfl

/-- C10: a mapping record with `enabled` equal to `false` makes
`get_plug_device_id_for_sensor` return `None`, and the webhook handler
then saves the readings and attempts no plug control; a record lacking
the `enabled` attribute entirely is treated as enabled (the code
defaults `item.get("enabled", True)`), so its (non-empty) plug id is
returned and a control call on that plug is attempted. -/
theorem claim_C10 :
    (∀ (mapping : JVal → Option (List (String × JVal))) (macv : JVal)
        (item : List (String × JVal)),
        mapping macv = some item → pyGet item "enabled" = some (.jb false) →
        get_plug_device_id_for_sensor mapping macv = none)
    ∧ (∀ (secret : String) (mapping : JVal → Option (List (String × JVal))) (now : Int)
        (p pl io : List (String × JVal)) (mac : String) (readings : List JVal)
        (item : List (String × JVal)),
        pyGetD p "payload" (.jo []) = .jo pl →
        pyGetD pl "info" (.jo []) = .jo io →
        pyGet io "mac" = some (.js mac) → mac ≠ "" →
        pyGetD pl "data" (.ja []) = .ja readings → readings ≠ [] →
        (∀ r ∈ readings, wellFormedReading r = true) →
        _verify_signature secret (pyGetD p "signature" (.jo [])) = true →
        mapping (.js mac) = some item → pyGet item "enabled" = some (.jb false) →
        ∃ saves : List SavedReading,
          handle_qingping_webhook secret mapping now (.ok (.jo p)) = .ok ⟨200, saves, none⟩
          ∧ saves.length = readings.length)
    ∧ (∀ (mapping : JVal → Option (List (String × JVal))) (macv : JVal)
        (item : List (String × JVal)) (d : String),
        mapping macv = some item → pyGet item "enabled" = none →
        pyGet item "tuya_device_id" = some (.js d) →
        get_plug_device_id_for_sensor mapping macv = some (.js d))
    ∧ (∀ (secret : String) (mapping : JVal → Option (List (String × JVal))) (now : Int)
        (p pl io : List (String × JVal)) (mac : String) (readings : List JVal)
        (item : List (String × JVal)) (d : String),
        pyGetD p "payload" (.jo []) = .jo pl →
        pyGetD pl "info" (.jo []) = .jo io →
        pyGet io "mac" = some (.js mac) → mac ≠ "" →
        pyGetD pl "data" (.ja []) = .ja readings → readings ≠ [] →
        (∀ r ∈ readings, wellFormedReading r = true) →
        _verify_signature secret (pyGetD p "signature" (.jo [])) = true →
        mapping (.js mac) = some item → pyGet item "enabled" = none →
        pyGet item "tuya_device_id" = some (.js d) → d ≠ "" →
        ∃ (saves : List SavedReading) (st : Bool),
          handle_qingping_webhook secret mapping now (.ok (.jo p)) =
            .ok ⟨200, saves, some (.js d, st)⟩
          ∧ saves.length = readings.length) := by
  have hplug_off : ∀ (mapping : JVal → Option (List (String × JVal))) (macv : JVal)
      (item : List (String × JVal)),
      mapping macv = some item → pyGet item "enabled" = some (.jb false) →
      get_plug_device_id_for_sensor mapping macv = none := by
    intro mapping macv item hm he
    simp [get_plug_device_id_for_sensor, hm, pyGetD, he, pyTruthy]
  have hplug_on : ∀ (mapping : JVal → Option (List (String × JVal))) (macv : JVal)
      (item : List (String × JVal)) (d : String),
      mapping macv = some item → pyGet item "enabled" = none →
      pyGet item "tuya_device_id" = some (.js d) →
      get_plug_device_id_for_sensor mapping macv = some (.js d) := by
    intro mapping macv item d hm he hd
    simp [get_plug_device_id_for_sensor, hm, pyGetD, he, pyTruthy, pyGet_ne_nil hd, hd]
  refine ⟨hplug_off, ?_, hplug_on, ?_⟩
  · intro secret mapping now p pl io mac readings item h1 h2 h3 h4 h5 h6 h7 h8 hm he
    obtain ⟨saves, hsaves, hlen⟩ := saveAll_ok now (.js mac) readings h7
    obtain ⟨lo, pm25v, pm25, hlast, hpm, hpmf⟩ := last_reading_fields readings h6 h7
    have hh := handle_success secret mapping now p pl io mac readings saves pm25v pm25 lo
      h1 h2 h3 h4 h5 h6 h8 hsaves hlast hpm hpmf
    rw [hplug_off mapping (.js mac) item hm he] at hh
    exact ⟨saves, by simpa [truthyOpt] using hh, hlen⟩
  · intro secret mapping now p pl io mac readings item d h1 h2 h3 h4 h5 h6 h7 h8 hm he hd hdne
    obtain ⟨saves, hsaves, hlen⟩ := saveAll_ok now (.js mac) readings h7
    obtain ⟨lo, pm25v, pm25, hlast, hpm, hpmf⟩ := last_reading_fields readings h6 h7
    have hh := handle_success secret mapping now p pl io mac readings saves pm25v pm25 lo
      h1 h2 h3 h4 h5 h6 h8 hsaves hlast hpm hpmf
    rw [hplug_on mapping (.js mac) item d hm he hd] at hh
    refine ⟨saves, decide (9 ≤ pm25), ?_, hlen⟩
    simpa [truthyOpt, pyTruthy, hdne] using hh


/-- C3, witness: at concrete inputs — a parse failure answers 400, an
empty secret refuses, a wrong signature answers 401, the demo payload
answers 200, and the Flask handler answers 500 on a parse failure. -/
theorem claim_C3_witness :
    (handle_qingping_webhook "k" (fun _ => none) 50 (.error ()) = .ok ⟨400, [], none⟩)
    ∧ (_verify_signature "" demoSig = false)
    ∧ (handle_qingping_webhook "k" (fun _ => none) 50
        (.ok (.jo [("signature", .jo [("timestamp", .js "1"), ("token", .js "t"),
          ("signature", .js "bad")])])) = .ok ⟨401, [], none⟩)
    ∧ (Except.map (fun r => r.statusCode)
        (handle_qingping_webhook "k" (fun _ => none) 50 (.ok (.jo demoPayload))) = .ok 200)
    ∧ (WebhookServer.receive_data "k" (.error ()) = (500, "error")) := by
  refine ⟨claim_C3_amended.1 "k" (fun _ => none) 50, claim_C3_amended.2.1 demoSig, ?_, ?_,
    claim_C3_amended.2.2.2.2.2.2.2.2.2.2 "k"⟩
  · exact claim_C3_amended.2.2.2.2.2.2.2.2.1 "k" (fun _ => none) 50 _ (by decide)
  · obtain ⟨saves, ctl, hh, -⟩ := claim_C3_amended.2.2.2.2.2.2.2.2.2.1 "k" (fun _ => none) 50
      demoPayload _ _ "MAC" [demoReading] rfl rfl rfl (by decide) rfl (List.cons_ne_nil _ _)
      (by intro r hr; rw [List.mem_singleton] at hr; subst hr; decide)
      (by decide)
    rw [hh]
    rfl


/-- C10, witness: with `enabled: false` the demo webhook run saves and
does not control; without the `enabled` attribute it controls plug
`dev1`. -/
theorem claim_C10_witness :
    (get_plug_device_id_for_sensor demoMappingOff (.js "MAC") = none)
    ∧ (Except.map (fun r => (r.statusCode, r.control))
        (handle_qingping_webhook "k" demoMappingOff 50 (.ok (.jo demoPayload))) =
        .ok (200, none))
    ∧ (get_plug_device_id_for_sensor demoMappingOn (.js "MAC") = some (.js "dev1"))
    ∧ (Except.map (fun r => (r.statusCode, r.control.map Prod.fst))
        (handle_qingping_webhook "k" demoMappingOn 50 (.ok (.jo demoPayload))) =
        .ok (200, some (.js "dev1"))) := by
  refine ⟨claim_C10.1 demoMappingOff (.js "MAC") _ rfl rfl, ?_,
    claim_C10.2.2.1 demoMappingOn (.js "MAC") _ "dev1" rfl rfl rfl, ?_⟩
  · obtain ⟨saves, hh, -⟩ := claim_C10.2.1 "k" demoMappingOff 50 demoPayload _ _ "MAC"
      [demoReading] _ rfl rfl rfl (by decide) rfl (List.cons_ne_nil _ _)
      (by intro r hr; rw [List.mem_singleton] at hr; subst hr; decide) (by decide) rfl rfl
    rw [hh]
    rfl
  · obtain ⟨saves, st, hh, -⟩ := claim_C10.2.2.2 "k" demoMappingOn 50 demoPayload _ _ "MAC"
      [demoReading] _ "dev1" rfl rfl rfl (by decide) rfl (List.cons_ne_nil _ _)
      (by intro r hr; rw [List.mem_singleton] at hr; subst hr; decide) (by decide) rfl rfl rfl
      (by decide)
    rw [hh]
    rfl

end LambdaFunction
